import Mathlib

/-! Verification development for the Olarm Home Assistant integration
(custom_components/olarm_sensors).  The definitions below are a shallow
embedding of `olarm_api.py` and `const.py`: the rate limiter
`OlarmRateLimiter`, the per-key limiter registry of `OlarmApi`, the
non-JSON response classifiers of `get_device_json` / `get_all_devices`,
`send_action`, `get_changed_by_json`, and the five state decoders.
Python time (`time.monotonic`) is modelled as an exact rational clock,
Python values as a JSON datatype, and Python exceptions as `Except`. -/

/-! Constants from const.py. -/

def MIN_SCAN_INTERVAL : ℕ := 60

def API_MIN_REQUEST_GAP : ℚ := 2

def API_BACKOFF_BASE : ℕ := 60

def API_BACKOFF_MAX : ℕ := 300

def API_MAX_CONSECUTIVE_429 : ℕ := 3

/-! The rate limiter `OlarmRateLimiter` (olarm_api.py lines 30-112).
Fields mirror `_last_request_time`, `_backoff_until`, `_consecutive_429s`. -/

structure LimiterState where
  last_request_time : ℚ
  backoff_until : ℚ
  consecutive_429s : ℕ
  deriving DecidableEq

/-- `OlarmRateLimiter.__init__`: all fields start at zero. -/
def initLimiter : LimiterState := ⟨0, 0, 0⟩

/-- `record_success` (line 92): resets the consecutive 429 counter. -/
def record_success (s : LimiterState) : LimiterState :=
  { s with consecutive_429s := 0 }

/-- `record_rate_limit` (lines 96-108): increments the counter and sets
`_backoff_until = now + min(API_BACKOFF_BASE * 2 ** (hits - 1), API_BACKOFF_MAX)`. -/
def record_rate_limit (now : ℚ) (s : LimiterState) : LimiterState :=
  let hits : ℕ := s.consecutive_429s + 1
  let backoff_seconds : ℕ := min (API_BACKOFF_BASE * 2 ^ (hits - 1)) API_BACKOFF_MAX
  { s with consecutive_429s := hits, backoff_until := now + (backoff_seconds : ℚ) }

/-- `reset_cycle` (lines 110-112): resets only the consecutive 429 counter. -/
def reset_cycle (s : LimiterState) : LimiterState :=
  { s with consecutive_429s := 0 }

/-- `wait_for_slot` (lines 59-90), idealized over an exact clock: returns
(proceed?, total seconds slept, new state).  If the consecutive-429
threshold is reached it returns `false` immediately, sleeping nothing and
mutating nothing.  Otherwise it sleeps out the backoff window, then the
minimum inter-request gap, and commits `last_request_time` to the exit
time. -/
def wait_for_slot (now : ℚ) (s : LimiterState) : Bool × ℚ × LimiterState :=
  if API_MAX_CONSECUTIVE_429 ≤ s.consecutive_429s then
    (false, 0, s)
  else
    let backoffWait : ℚ := max 0 (s.backoff_until - now)
    let t1 : ℚ := now + backoffWait
    let elapsed : ℚ := t1 - s.last_request_time
    let gapWait : ℚ := if elapsed < API_MIN_REQUEST_GAP then API_MIN_REQUEST_GAP - elapsed else 0
    (true, backoffWait + gapWait, { s with last_request_time := t1 + gapWait })

/-- N consecutive `record_rate_limit` calls at the given times. -/
def applyRateLimits (s : LimiterState) (ts : List ℚ) : LimiterState :=
  ts.foldl (fun s t => record_rate_limit t s) s

theorem applyRateLimits_consec (s : LimiterState) (ts : List ℚ) :
    (applyRateLimits s ts).consecutive_429s = s.consecutive_429s + ts.length := by
  induction ts generalizing s with
  | nil => simp [applyRateLimits]
  | cons t ts ih =>
    show (applyRateLimits (record_rate_limit t s) ts).consecutive_429s = _
    rw [ih]
    simp [record_rate_limit]
    omega

theorem applyRateLimits_last (s : LimiterState) (ts : List ℚ) (t : ℚ) :
    (applyRateLimits s (ts ++ [t])).backoff_until
      = t + ((min (API_BACKOFF_BASE * 2 ^ (s.consecutive_429s + ts.length)) API_BACKOFF_MAX : ℕ) : ℚ) := by
  have h1 : applyRateLimits s (ts ++ [t]) = record_rate_limit t (applyRateLimits s ts) := by
    simp [applyRateLimits, List.foldl_append]
  rw [h1]
  simp [record_rate_limit, applyRateLimits_consec]

/-- C1: For every N ≥ 1, after N consecutive `record_rate_limit` calls with
no intervening `record_success` or `reset_cycle`, starting from a limiter
whose consecutive-429 counter is 0, `backoff_until - now` equals
`min(60 * 2^(N-1), 300)` seconds, where `now` is the time of the N-th call. -/
theorem backoff_after_consecutive_rate_limits (s : LimiterState)
    (h0 : s.consecutive_429s = 0) (ts : List ℚ) (hne : ts ≠ []) :
    (applyRateLimits s ts).backoff_until - ts.getLast hne
      = ((min (API_BACKOFF_BASE * 2 ^ (ts.length - 1)) API_BACKOFF_MAX : ℕ) : ℚ) := by
  rcases List.eq_nil_or_concat ts with rfl | ⟨l, x, rfl⟩
  · exact absurd rfl hne
  · rw [List.getLast_concat']
    have hc : l.concat x = l ++ [x] := List.concat_eq_append l x
    rw [hc, applyRateLimits_last, h0]
    have hlen : (l ++ [x]).length - 1 = l.length := by simp
    rw [hlen]
    ring_nf

/-- Witness for C1 at a concrete input: two rate-limit records ending at
time 7 leave a backoff of `min(60 * 2, 300) = 120` seconds. -/
theorem backoff_after_consecutive_rate_limits_witness :
    initLimiter.consecutive_429s = 0 ∧
    (applyRateLimits initLimiter [(1 : ℚ), 7]).backoff_until - [(1 : ℚ), 7].getLast (by decide)
      = ((min (API_BACKOFF_BASE * 2 ^ ([(1 : ℚ), 7].length - 1)) API_BACKOFF_MAX : ℕ) : ℚ) :=
  ⟨rfl, backoff_after_consecutive_rate_limits initLimiter rfl [(1 : ℚ), 7] (by decide)⟩

/-! Operation sequences on the limiter, for the circuit-breaker claim. -/

inductive LimiterOp where
  | wait (now : ℚ)
  | rateLimit (now : ℚ)
  | success
  | reset
  deriving DecidableEq

def applyOp (s : LimiterState) : LimiterOp → LimiterState
  | .wait t => (wait_for_slot t s).2.2
  | .rateLimit t => record_rate_limit t s
  | .success => record_success s
  | .reset => reset_cycle s

def applyOps (s : LimiterState) (ops : List LimiterOp) : LimiterState :=
  ops.foldl applyOp s

/-- C2: Whenever the consecutive-429 counter is at least 3, `wait_for_slot`
returns `false` immediately, sleeps 0 seconds and leaves the state (in
particular `last_request_time`) unchanged; and this keeps holding across
any further sequence of `wait_for_slot` / `record_rate_limit` calls that
contains no `record_success` and no `reset_cycle`. -/
theorem wait_for_slot_circuit_breaker (s : LimiterState)
    (h : API_MAX_CONSECUTIVE_429 ≤ s.consecutive_429s)
    (ops : List LimiterOp) (hops : ∀ op ∈ ops, op ≠ .success ∧ op ≠ .reset) :
    API_MAX_CONSECUTIVE_429 ≤ (applyOps s ops).consecutive_429s ∧
    (applyOps s ops).last_request_time = s.last_request_time ∧
    ∀ now : ℚ, wait_for_slot now (applyOps s ops) = (false, 0, applyOps s ops) := by
  have main : API_MAX_CONSECUTIVE_429 ≤ (applyOps s ops).consecutive_429s ∧
      (applyOps s ops).last_request_time = s.last_request_time := by
    induction ops generalizing s with
    | nil => exact ⟨h, rfl⟩
    | cons op ops ih =>
      have hop := hops op (by simp)
      have hops' : ∀ op ∈ ops, op ≠ LimiterOp.success ∧ op ≠ LimiterOp.reset := by
        intro o ho; exact hops o (by simp [ho])
      show API_MAX_CONSECUTIVE_429 ≤ (applyOps (applyOp s op) ops).consecutive_429s ∧
        (applyOps (applyOp s op) ops).last_request_time = s.last_request_time
      cases op with
      | wait t =>
        have hw : applyOp s (.wait t) = s := by
          simp [applyOp, wait_for_slot, h]
        rw [hw]
        exact ih s h hops'
      | rateLimit t =>
        have h' : API_MAX_CONSECUTIVE_429 ≤ (record_rate_limit t s).consecutive_429s := by
          simp [record_rate_limit]; omega
        have ha : applyOp s (LimiterOp.rateLimit t) = record_rate_limit t s := rfl
        have := ih (record_rate_limit t s) h' hops'
        rw [ha]
        refine ⟨this.1, ?_⟩
        rw [this.2]
        simp [record_rate_limit]
      | success => exact absurd rfl hop.1
      | reset => exact absurd rfl hop.2
  refine ⟨main.1, main.2, fun now => ?_⟩
  simp [wait_for_slot, main.1]

/-- Witness for C2 at a concrete input: a limiter with 3 consecutive 429s,
after one further rate-limit record, still denies the slot without
sleeping or mutating anything. -/
theorem wait_for_slot_circuit_breaker_witness :
    API_MAX_CONSECUTIVE_429 ≤ (⟨5, 9, 3⟩ : LimiterState).consecutive_429s ∧
    (∀ op ∈ [LimiterOp.rateLimit 10], op ≠ LimiterOp.success ∧ op ≠ LimiterOp.reset) ∧
    wait_for_slot 100 (applyOps ⟨5, 9, 3⟩ [LimiterOp.rateLimit 10])
      = (false, 0, applyOps ⟨5, 9, 3⟩ [LimiterOp.rateLimit 10]) :=
  ⟨by decide, by decide,
    (wait_for_slot_circuit_breaker ⟨5, 9, 3⟩ (by decide) [LimiterOp.rateLimit 10]
      (by decide)).2.2 100⟩

/-- C7: `reset_cycle` sets the consecutive-429 counter to 0 and changes
nothing else: `backoff_until` and `last_request_time` are unchanged, so a
backoff window active before the call still forces `wait_for_slot` to
sleep at least until the window expires. -/
theorem reset_cycle_frame (s : LimiterState) :
    (reset_cycle s).consecutive_429s = 0 ∧
    (reset_cycle s).backoff_until = s.backoff_until ∧
    (reset_cycle s).last_request_time = s.last_request_time ∧
    ∀ now : ℚ, now < s.backoff_until →
      s.backoff_until - now ≤ (wait_for_slot now (reset_cycle s)).2.1 := by
  refine ⟨rfl, rfl, rfl, fun now hnow => ?_⟩
  have h3 : ¬ API_MAX_CONSECUTIVE_429 ≤ (reset_cycle s).consecutive_429s := by
    simp [reset_cycle, API_MAX_CONSECUTIVE_429]
  rw [wait_for_slot, if_neg h3]
  simp only [reset_cycle]
  have hb : max 0 (s.backoff_until - now) = s.backoff_until - now := by
    rw [max_eq_right]; linarith
  rw [hb]
  have hg : (0 : ℚ) ≤
      (if now + (s.backoff_until - now) - s.last_request_time < API_MIN_REQUEST_GAP
        then API_MIN_REQUEST_GAP - (now + (s.backoff_until - now) - s.last_request_time)
        else 0) := by
    split <;> linarith
  linarith

/-- Witness for C7 at a concrete input: with a backoff until time 50 and
the clock at 10, `wait_for_slot` after `reset_cycle` sleeps at least 40
seconds. -/
theorem reset_cycle_frame_witness :
    ((10 : ℚ) < (⟨0, 50, 2⟩ : LimiterState).backoff_until) ∧
    (⟨0, 50, 2⟩ : LimiterState).backoff_until - 10
      ≤ (wait_for_slot 10 (reset_cycle ⟨0, 50, 2⟩)).2.1 :=
  ⟨by norm_num, (reset_cycle_frame ⟨0, 50, 2⟩).2.2.2 10 (by norm_num)⟩

/-! Per-key limiter registry (olarm_api.py lines 123-124 and 152-155):
`OlarmApi._rate_limiters` is a class-level dict from API key to
`OlarmRateLimiter`; `__init__` creates a limiter only when the key is not
yet present.  Limiter instances are identified by allocation ids. -/

structure RegistryState where
  reg : List (String × ℕ)
  next : ℕ
  deriving DecidableEq

def emptyRegistry : RegistryState := ⟨[], 0⟩

def lookupKey (reg : List (String × ℕ)) (k : String) : Option ℕ :=
  match reg with
  | [] => none
  | (k', i) :: rest => if k' = k then some i else lookupKey rest k

/-- `OlarmApi.__init__` lines 152-155: if the key is absent, allocate a
fresh limiter and store it; either way the constructed api holds the
limiter registered under its key. -/
def olarmApiInit (st : RegistryState) (k : String) : ℕ × RegistryState :=
  match lookupKey st.reg k with
  | some i => (i, st)
  | none => (st.next, ⟨(k, st.next) :: st.reg, st.next + 1⟩)

/-- Construct a sequence of `OlarmApi` instances for the given keys,
returning each api as (key, limiter id) together with the final registry. -/
def buildApis : RegistryState → List String → List (String × ℕ) × RegistryState
  | st, [] => ([], st)
  | st, k :: ks =>
    let p := olarmApiInit st k
    let rest := buildApis p.2 ks
    ((k, p.1) :: rest.1, rest.2)

theorem lookupKey_olarmApiInit_mono (st : RegistryState) (k k' : String) (i : ℕ)
    (h : lookupKey st.reg k = some i) :
    lookupKey (olarmApiInit st k').2.reg k = some i := by
  unfold olarmApiInit
  cases hl : lookupKey st.reg k' with
  | some j => exact h
  | none =>
    simp only [lookupKey]
    have hne : ¬ k' = k := by
      intro he; rw [he] at hl; rw [hl] at h; exact Option.noConfusion h
    rw [if_neg hne]
    exact h

theorem lookupKey_olarmApiInit_self (st : RegistryState) (k : String) :
    lookupKey (olarmApiInit st k).2.reg k = some (olarmApiInit st k).1 := by
  unfold olarmApiInit
  cases hl : lookupKey st.reg k with
  | some j => exact hl
  | none => simp [lookupKey]

theorem lookupKey_buildApis_mono (ks : List String) (st : RegistryState) (k : String) (i : ℕ)
    (h : lookupKey st.reg k = some i) :
    lookupKey (buildApis st ks).2.reg k = some i := by
  induction ks generalizing st with
  | nil => exact h
  | cons k' ks ih =>
    show lookupKey (buildApis (olarmApiInit st k').2 ks).2.reg k = some i
    exact ih _ (lookupKey_olarmApiInit_mono st k k' i h)

theorem buildApis_consistent (ks : List String) (st : RegistryState) :
    ∀ p ∈ (buildApis st ks).1, lookupKey (buildApis st ks).2.reg p.1 = some p.2 := by
  induction ks generalizing st with
  | nil => intro p hp; exact absurd hp (List.not_mem_nil p)
  | cons k ks ih =>
    intro p hp
    have hshape : (buildApis st (k :: ks)).1
        = (k, (olarmApiInit st k).1) :: (buildApis (olarmApiInit st k).2 ks).1 := rfl
    rw [hshape] at hp
    rcases List.mem_cons.mp hp with rfl | hp'
    · show lookupKey (buildApis (olarmApiInit st k).2 ks).2.reg k = some (olarmApiInit st k).1
      exact lookupKey_buildApis_mono ks _ k _ (lookupKey_olarmApiInit_self st k)
    · exact ih _ p hp'

theorem lookupKey_none_notMem (reg : List (String × ℕ)) (k : String)
    (h : lookupKey reg k = none) : ∀ i, (k, i) ∉ reg := by
  induction reg with
  | nil => intro i hi; exact absurd hi (List.not_mem_nil _)
  | cons p rest ih =>
    intro i hi
    rcases p with ⟨k', j⟩
    simp only [lookupKey] at h
    by_cases he : k' = k
    · rw [if_pos he] at h; exact Option.noConfusion h
    · rw [if_neg he] at h
      rcases List.mem_cons.mp hi with heq | hmem
      · exact he (congrArg Prod.fst heq).symm
      · exact ih h i hmem

/-- Keys appear at most once in the registry. -/
def RegNodup (st : RegistryState) : Prop :=
  (st.reg.map Prod.fst).Nodup

theorem regNodup_olarmApiInit (st : RegistryState) (k : String) (h : RegNodup st) :
    RegNodup (olarmApiInit st k).2 := by
  unfold olarmApiInit
  cases hl : lookupKey st.reg k with
  | some j => exact h
  | none =>
    simp only [RegNodup, List.map_cons, List.nodup_cons]
    refine ⟨?_, h⟩
    intro hmem
    rcases List.mem_map.mp hmem with ⟨⟨k', i⟩, hpmem, hfst⟩
    have hke : k' = k := hfst
    rw [hke] at hpmem
    exact lookupKey_none_notMem st.reg k hl i hpmem

theorem regNodup_buildApis (ks : List String) (st : RegistryState) (h : RegNodup st) :
    RegNodup (buildApis st ks).2 := by
  induction ks generalizing st with
  | nil => exact h
  | cons k ks ih =>
    show RegNodup (buildApis (olarmApiInit st k).2 ks).2
    exact ih _ (regNodup_olarmApiInit st k h)

theorem filter_key_len_le_one (reg : List (String × ℕ)) (k : String)
    (h : (reg.map Prod.fst).Nodup) :
    (reg.filter (fun p => p.1 = k)).length ≤ 1 := by
  induction reg with
  | nil => simp
  | cons p rest ih =>
    rcases p with ⟨k', j⟩
    simp only [List.map_cons, List.nodup_cons] at h
    by_cases he : k' = k
    · subst he
      have hrest : rest.filter (fun p => p.1 = k') = [] := by
        rw [List.filter_eq_nil_iff]
        intro q hq hdec
        have : q.1 = k' := by simpa using hdec
        exact h.1 (List.mem_map.mpr ⟨q, hq, this⟩)
      simp [List.filter_cons, hrest]
    · have : (((k', j) :: rest).filter (fun p => p.1 = k)).length
          = (rest.filter (fun p => p.1 = k)).length := by
        simp [List.filter_cons, he]
      rw [this]
      exact ih h.2

/-- C6: starting from the empty registry, for every sequence of `OlarmApi`
constructions and every API key, at most one limiter entry is ever
registered for that key, and any two constructed apis that share a key
hold the same limiter id. -/
theorem rate_limiter_singleton_per_key (ks : List String) (k : String) :
    ((buildApis emptyRegistry ks).2.reg.filter (fun p => p.1 = k)).length ≤ 1 ∧
    ∀ p ∈ (buildApis emptyRegistry ks).1, ∀ q ∈ (buildApis emptyRegistry ks).1,
      p.1 = q.1 → p.2 = q.2 := by
  constructor
  · exact filter_key_len_le_one _ k
      (regNodup_buildApis ks emptyRegistry (by simp [RegNodup, emptyRegistry]))
  · intro p hp q hq hk
    have h1 := buildApis_consistent ks emptyRegistry p hp
    have h2 := buildApis_consistent ks emptyRegistry q hq
    rw [hk] at h1
    rw [h1] at h2
    exact Option.some.inj h2

/-- Witness for C6 at a concrete input: constructing apis for keys
"a", "b", "a" yields the same limiter id for both "a" apis. -/
theorem rate_limiter_singleton_per_key_witness :
    ((buildApis emptyRegistry ["a", "b", "a"]).2.reg.filter (fun p => p.1 = "a")).length ≤ 1 ∧
    ("a", 0) ∈ (buildApis emptyRegistry ["a", "b", "a"]).1 ∧
    (0 : ℕ) = 0 :=
  ⟨(rate_limiter_singleton_per_key ["a", "b", "a"] "a").1, by decide,
    (rate_limiter_singleton_per_key ["a", "b", "a"] "a").2 ("a", 0) (by decide)
      ("a", 0) (by decide) rfl⟩

/-! Python value and exception model.  JSON-decoded Python values are
represented by `Json`; Python exceptions by `PyErr` carried in `Except`.
The custom exception classes of exceptions.py (DictionaryKeyError,
ListIndexError, ...) are aliases caught alongside the builtin KeyError /
IndexError and are never raised by olarm_api.py itself, so the builtin
kinds suffice. -/

inductive PyErr where
  | keyError
  | indexError
  | typeError
  | valueError
  | attrError
  | nameError
  deriving DecidableEq

inductive Json where
  | null
  | bool (b : Bool)
  | int (n : Int)
  | str (s : String)
  | arr (xs : List Json)
  | obj (kvs : List (String × Json))

def Json.isObj : Json → Bool
  | .obj _ => true
  | _ => false

def Json.isArr : Json → Bool
  | .arr _ => true
  | _ => false

def Json.arrLen : Json → ℕ
  | .arr xs => xs.length
  | _ => 0

mutual

/-- Python `repr` of a JSON-decoded value, as used by `str()` on
non-string containers.  Dict braces are written via their char codes. -/
def pyRepr : Json → String
  | .null => "None"
  | .bool true => "True"
  | .bool false => "False"
  | .int n => toString n
  | .str s => "'" ++ s ++ "'"
  | .arr xs => "[" ++ pyReprList xs ++ "]"
  | .obj kvs => String.singleton (Char.ofNat 123) ++ pyReprObj kvs ++ String.singleton (Char.ofNat 125)

def pyReprList : List Json → String
  | [] => ""
  | [x] => pyRepr x
  | x :: xs => pyRepr x ++ ", " ++ pyReprList xs

def pyReprObj : List (String × Json) → String
  | [] => ""
  | [(k, v)] => "'" ++ k ++ "': " ++ pyRepr v
  | (k, v) :: kvs => "'" ++ k ++ "': " ++ pyRepr v ++ ", " ++ pyReprObj kvs

end

/-- Python `str()`. -/
def pyStr : Json → String
  | .str s => s
  | j => pyRepr j

mutual

/-- Python `==` on JSON-decoded values (bool compares equal to its int
value; dict comparison is structural here, which agrees with Python on
objects parsed from JSON in a fixed key order — every use in olarm_api.py
compares against a string, where both semantics give `false`). -/
def pyEq : Json → Json → Bool
  | .null, .null => true
  | .bool a, .bool b => a == b
  | .bool a, .int b => (if a then (1 : Int) else 0) == b
  | .int a, .bool b => a == (if b then (1 : Int) else 0)
  | .int a, .int b => a == b
  | .str a, .str b => a == b
  | .arr a, .arr b => pyEqList a b
  | .obj a, .obj b => pyEqObj a b
  | _, _ => false

def pyEqList : List Json → List Json → Bool
  | [], [] => true
  | a :: as, b :: bs => pyEq a b && pyEqList as bs
  | _, _ => false

def pyEqObj : List (String × Json) → List (String × Json) → Bool
  | [], [] => true
  | (k, v) :: as, (k2, v2) :: bs => k == k2 && pyEq v v2 && pyEqObj as bs
  | _, _ => false

end

/-- Python truthiness. -/
def pyTruthy : Json → Bool
  | .null => false
  | .bool b => b
  | .int n => n != 0
  | .str s => s != ""
  | .arr xs => !xs.isEmpty
  | .obj kvs => !kvs.isEmpty

/-- Python `str.lower()` (ASCII, which covers every phrase the source
compares against). -/
def pyLower (s : String) : String :=
  String.mk (s.data.map Char.toLower)

def listPrefixEq : List Char → List Char → Bool
  | [], _ => true
  | _ :: _, [] => false
  | a :: as, b :: bs => a == b && listPrefixEq as bs

def listSub (n : List Char) : List Char → Bool
  | [] => n.isEmpty
  | c :: t => listPrefixEq n (c :: t) || listSub n t

/-- Python `needle in haystack` on strings. -/
def pyInStr (needle hay : String) : Bool :=
  listSub needle.data hay.data

def lookupStr : List (String × Json) → String → Option Json
  | [], _ => none
  | (k', v) :: rest, k => if k' = k then some v else lookupStr rest k

/-- Python `d[k]` with a string key: KeyError when absent, TypeError when
the subscripted value is not a dict (string keys never index lists). -/
def objGet : Json → String → Except PyErr Json
  | .obj kvs, k =>
    match lookupStr kvs k with
    | some v => .ok v
    | none => .error .keyError
  | .arr _, _ => .error .typeError
  | .str _, _ => .error .typeError
  | _, _ => .error .typeError

/-- Python `d.get(k, default)`: AttributeError when the receiver is not a
dict. -/
def pyGetD : Json → String → Json → Except PyErr Json
  | .obj kvs, k, d =>
    match lookupStr kvs k with
    | some v => .ok v
    | none => .ok d
  | _, _, _ => .error .attrError

/-- Python `x[i]` with a non-negative int index. -/
def pyIndex : Json → ℕ → Except PyErr Json
  | .arr xs, i =>
    match xs.get? i with
    | some v => .ok v
    | none => .error .indexError
  | .str s, i =>
    match s.data.get? i with
    | some c => .ok (.str (String.singleton c))
    | none => .error .indexError
  | .obj _, _ => .error .keyError
  | _, _ => .error .typeError

/-- Python `len(x)`. -/
def pyLen : Json → Except PyErr ℕ
  | .arr xs => .ok xs.length
  | .str s => .ok s.length
  | .obj kvs => .ok kvs.length
  | _ => .error .typeError

/-- Python `d.items()`. -/
def pyItems : Json → Except PyErr (List (String × Json))
  | .obj kvs => .ok kvs
  | _ => .error .attrError

/-- Python `x in c` for dict (key membership), list (value membership) and
string (substring) containers. -/
def pyInE (x : Json) : Json → Except PyErr Bool
  | .obj kvs => .ok (kvs.any (fun kv => pyEq x (.str kv.1)))
  | .arr xs => .ok (xs.any (fun y => pyEq x y))
  | .str s =>
    match x with
    | .str n => .ok (pyInStr n s)
    | _ => .error .typeError
  | _ => .error .typeError

def digitsToNat (cs : List Char) : Option ℕ :=
  if cs = [] then none
  else if cs.all Char.isDigit then
    some (cs.foldl (fun a c => a * 10 + (c.toNat - 48)) 0)
  else none

/-- Python `int(s)` on a string: optional surrounding whitespace, optional
sign, decimal digits (digit-group underscores are not modelled). -/
def parsePyInt (s : String) : Option Int :=
  let cs := ((s.data.dropWhile Char.isWhitespace).reverse.dropWhile Char.isWhitespace).reverse
  match cs with
  | '-' :: rest => (digitsToNat rest).map (fun n => -(n : Int))
  | '+' :: rest => (digitsToNat rest).map (fun n => (n : Int))
  | _ => (digitsToNat cs).map (fun n => (n : Int))

/-- Python `int(x)`. -/
def pyInt : Json → Except PyErr Int
  | .int n => .ok n
  | .bool b => .ok (if b then 1 else 0)
  | .str s =>
    match parsePyInt s with
    | some n => .ok n
    | none => .error .valueError
  | .null => .error .typeError
  | .arr _ => .error .typeError
  | .obj _ => .error .typeError

/-- Python `range(0, x)` iteration count: x must be an int (bool included). -/
def pyRangeLen : Json → Except PyErr ℕ
  | .int n => .ok n.toNat
  | .bool b => .ok (if b then 1 else 0)
  | _ => .error .typeError

def objSetGo : List (String × Json) → String → Json → List (String × Json)
  | [], k, v => [(k, v)]
  | (k', v') :: rest, k, v =>
    if k' = k then (k', v) :: rest else (k', v') :: objSetGo rest k v

/-- Python `d[k] = v` on a dict (in-place position preserved). -/
def objSet : Json → String → Json → Except PyErr Json
  | .obj kvs, k, v => .ok (.obj (objSetGo kvs k v))
  | _, _, _ => .error .typeError

/-- Python `for x in c`: the sequence of iterates (dict iterates its keys). -/
def pyIterList : Json → Except PyErr (List Json)
  | .arr xs => .ok xs
  | .obj kvs => .ok (kvs.map (fun kv => Json.str kv.1))
  | .str s => .ok (s.data.map (fun c => Json.str (String.singleton c)))
  | _ => .error .typeError

/-! A generic indexed loop: run `step 0`, `step 1`, ... accumulating
results, stopping at the first exception, which is returned together
with the partial list accumulated so far. -/

def iterGo (step : ℕ → Except PyErr α) : ℕ → ℕ → List α → List α × Option PyErr
  | _, 0, acc => (acc.reverse, none)
  | i, fuel + 1, acc =>
    match step i with
    | .ok r => iterGo step (i + 1) fuel (r :: acc)
    | .error e => (acc.reverse, some e)

def pyFor (step : ℕ → Except PyErr α) (n : ℕ) : List α × Option PyErr :=
  iterGo step 0 n []

theorem iterGo_ok (step : ℕ → Except PyErr α) (f : ℕ → α)
    (h : ∀ i, step i = .ok (f i)) (fuel : ℕ) :
    ∀ (i : ℕ) (acc : List α),
      iterGo step i fuel acc = (acc.reverse ++ (List.range' i fuel).map f, none) := by
  induction fuel with
  | zero => intro i acc; simp [iterGo]
  | succ fuel ih =>
    intro i acc
    have hstep : iterGo step i (fuel + 1) acc = iterGo step (i + 1) fuel (f i :: acc) := by
      rw [iterGo, h i]
    rw [hstep, ih (i + 1) (f i :: acc)]
    simp [List.range'_succ]

theorem pyFor_ok (step : ℕ → Except PyErr α) (f : ℕ → α)
    (h : ∀ i, step i = .ok (f i)) (n : ℕ) :
    pyFor step n = ((List.range n).map f, none) := by
  rw [pyFor, iterGo_ok step f h n 0 []]
  simp [List.range_eq_range']

theorem iterGo_stop (step : ℕ → Except PyErr α) (f : ℕ → α) (k : ℕ) (e : PyErr)
    (hk : step k = .error e) :
    ∀ (fuel i : ℕ) (acc : List α), i ≤ k → k < i + fuel →
      (∀ j, i ≤ j → j < k → step j = .ok (f j)) →
      iterGo step i fuel acc = (acc.reverse ++ (List.range' i (k - i)).map f, some e) := by
  intro fuel
  induction fuel with
  | zero => intro i acc h1 h2; omega
  | succ fuel ih =>
    intro i acc h1 h2 h3
    by_cases hik : i = k
    · subst hik
      rw [iterGo, hk]
      simp
    · have hi : step i = .ok (f i) := h3 i le_rfl (by omega)
      have hstep : iterGo step i (fuel + 1) acc = iterGo step (i + 1) fuel (f i :: acc) := by
        rw [iterGo, hi]
      rw [hstep, ih (i + 1) (f i :: acc) (by omega) (by omega)
        (fun j hj1 hj2 => h3 j (by omega) hj2)]
      have hr : List.range' i (k - i) = i :: List.range' (i + 1) (k - (i + 1)) := by
        have : k - i = (k - (i + 1)) + 1 := by omega
        rw [this, List.range'_succ]
      rw [hr]
      simp

theorem pyFor_stop (step : ℕ → Except PyErr α) (f : ℕ → α) (k n : ℕ) (e : PyErr)
    (hk : step k = .error e) (hkn : k < n)
    (h : ∀ j < k, step j = .ok (f j)) :
    pyFor step n = ((List.range k).map f, some e) := by
  rw [pyFor, iterGo_stop step f k e hk n 0 [] (by omega) (by omega)
    (fun j _ hj => h j hj)]
  simp [List.range_eq_range']

/-! HTTP request outcomes, as seen by the request methods after
`wait_for_slot` and the HTTP call: slot denied, HTTP 429, a body that
parses as JSON, a body that raises ContentTypeError (plain text, with the
response status), or an `APIClientConnectorError`. -/

inductive FetchOutcome where
  | denied
  | http429 (text : String)
  | jsonBody (j : Json)
  | textBody (status : ℕ) (text : String)
  | connErr

inductive LimiterEffect where
  | noEffect
  | success
  | rateLimit
  deriving DecidableEq

inductive TextKind where
  | forbidden
  | gateway
  | tooMany
  | generic
  deriving DecidableEq

/-- Branch taken by `get_device_json` (lines 186-211) on a non-JSON body:
`"forbidden" in text.lower()`, then `status == 502`, then
`"too many requests" in text.lower()`, else the generic log. -/
def deviceJsonTextKind (status : ℕ) (t : String) : TextKind :=
  if pyInStr "forbidden" (pyLower t) then .forbidden
  else if status = 502 then .gateway
  else if pyInStr "too many requests" (pyLower t) then .tooMany
  else .generic

/-- Branch taken by `get_all_devices` (lines 819-838) on a non-JSON body:
`"Forbidden" in text`, then `"Too Many Requests" in text` (both
case-sensitive, no 502 case). -/
def allDevicesTextKind (t : String) : TextKind :=
  if pyInStr "Forbidden" t then .forbidden
  else if pyInStr "Too Many Requests" t then .tooMany
  else .generic

/-- `get_device_json` (lines 157-215): returned value and the effect
applied to the shared rate limiter. -/
def get_device_json (o : FetchOutcome) : Except PyErr (Json × LimiterEffect) :=
  match o with
  | .denied =>
    .ok (.obj [("error", .str "Rate limited — too many consecutive 429 responses")], .noEffect)
  | .http429 t => .ok (.obj [("error", .str t)], .rateLimit)
  | .jsonBody j =>
    match objSet j "error" .null with
    | .ok resp => .ok (resp, .success)
    | .error e => .error e
  | .textBody status t =>
    .ok (.obj [("error", .str t)],
      if deviceJsonTextKind status t = .tooMany then .rateLimit else .noEffect)
  | .connErr => .ok (.obj [("error", .str "APIClientConnectorError")], .noEffect)

/-- `get_all_devices` (lines 791-842): returned value (`data` on success,
`[]` otherwise) and the effect applied to the shared rate limiter. -/
def get_all_devices (o : FetchOutcome) : Except PyErr (Json × LimiterEffect) :=
  match o with
  | .denied => .ok (.arr [], .noEffect)
  | .http429 _ => .ok (.arr [], .rateLimit)
  | .jsonBody j =>
    match objGet j "data" with
    | .ok d => .ok (d, .success)
    | .error e => .error e
  | .textBody _ t =>
    .ok (.arr [],
      if allDevicesTextKind t = .tooMany then .rateLimit else .noEffect)
  | .connErr => .ok (.arr [], .noEffect)

theorem listPrefixEq_map (f : Char → Char) :
    ∀ n h : List Char, listPrefixEq n h = true →
      listPrefixEq (n.map f) (h.map f) = true := by
  intro n
  induction n with
  | nil => intro h _; rfl
  | cons a as ih =>
    intro h hp
    cases h with
    | nil => exact absurd hp (by simp [listPrefixEq])
    | cons b bs =>
      simp only [listPrefixEq, Bool.and_eq_true, beq_iff_eq] at hp
      simp only [List.map_cons, listPrefixEq, Bool.and_eq_true, beq_iff_eq]
      exact ⟨by rw [hp.1], ih bs hp.2⟩

theorem listSub_map (f : Char → Char) (n : List Char) :
    ∀ h : List Char, listSub n h = true → listSub (n.map f) (h.map f) = true := by
  intro h
  induction h with
  | nil =>
    simp only [listSub, List.isEmpty_iff]
    intro he
    simp [he, listSub]
  | cons c t ih =>
    simp only [listSub, Bool.or_eq_true]
    rintro (hp | hs)
    · exact Or.inl (by simpa using listPrefixEq_map f n (c :: t) hp)
    · exact Or.inr (ih hs)

theorem pyInStr_lower (n h : String) (hs : pyInStr n h = true) :
    pyInStr (pyLower n) (pyLower h) = true :=
  listSub_map Char.toLower n.data h.data hs

/-- Counterexample to C9: on the non-JSON body "forbidden" with status
200, `get_device_json` classifies it as a forbidden/auth failure while
`get_all_devices` (case-sensitive match) does not; and on the body
"too many requests" `get_device_json` records a rate limit on the shared
limiter while `get_all_devices` does not. -/
theorem text_classification_disagrees :
    deviceJsonTextKind 200 "forbidden" = .forbidden ∧
    allDevicesTextKind "forbidden" = .generic ∧
    get_device_json (.textBody 200 "too many requests")
      = .ok (.obj [("error", .str "too many requests")], .rateLimit) ∧
    get_all_devices (.textBody 200 "too many requests") = .ok (.arr [], .noEffect) := by
  refine ⟨by decide, by decide, ?_, ?_⟩ <;> rfl

/-- C9 (amended): both methods record a rate limit on an HTTP 429, and the
non-JSON-body classifications agree in one direction only: whenever
`get_all_devices` classifies a body as forbidden, `get_device_json` does
too; and whenever `get_all_devices` treats a body as too-many-requests,
`get_device_json` does the same provided the status is not 502 and the
body does not also contain "forbidden" case-insensitively. -/
theorem text_classification_refines (t : String) (status : ℕ) :
    (get_device_json (.http429 t) = .ok (.obj [("error", .str t)], .rateLimit) ∧
      get_all_devices (.http429 t) = .ok (.arr [], .rateLimit)) ∧
    (allDevicesTextKind t = .forbidden → deviceJsonTextKind status t = .forbidden) ∧
    (allDevicesTextKind t = .tooMany → status ≠ 502 →
      pyInStr "forbidden" (pyLower t) = false → deviceJsonTextKind status t = .tooMany) := by
  refine ⟨⟨rfl, rfl⟩, ?_, ?_⟩
  · intro hall
    unfold allDevicesTextKind at hall
    by_cases hf : pyInStr "Forbidden" t = true
    · have hlow := pyInStr_lower "Forbidden" t hf
      have : pyLower "Forbidden" = "forbidden" := by decide
      rw [this] at hlow
      unfold deviceJsonTextKind
      rw [if_pos hlow]
    · rw [if_neg (by simp [hf])] at hall
      split at hall
      · exact absurd hall (by decide)
      · exact absurd hall (by decide)
  · intro hall hst hforb
    unfold allDevicesTextKind at hall
    by_cases hf : pyInStr "Forbidden" t = true
    · rw [if_pos hf] at hall
      exact absurd hall (by decide)
    · rw [if_neg (by simp [hf])] at hall
      by_cases htm : pyInStr "Too Many Requests" t = true
      · have hlow := pyInStr_lower "Too Many Requests" t htm
        have : pyLower "Too Many Requests" = "too many requests" := by decide
        rw [this] at hlow
        unfold deviceJsonTextKind
        rw [if_neg (by simp [hforb]), if_neg hst, if_pos hlow]
      · rw [if_neg (by simp [htm])] at hall
        exact absurd hall (by decide)

/-- Witness for the amended C9 at a concrete input: the body
"Forbidden zone" is classified as forbidden by both methods. -/
theorem text_classification_refines_witness :
    allDevicesTextKind "Forbidden zone" = .forbidden ∧
    deviceJsonTextKind 200 "Forbidden zone" = .forbidden :=
  ⟨by decide, (text_classification_refines "Forbidden zone" 200).2.1 (by decide)⟩

/-! `send_action` (olarm_api.py lines 642-701).  The caller-supplied
`post_data` dict matters on the non-JSON-body path, where the error log
subscripts `post_data["actionNum"]`; the rate limiter is updated before
that log line runs. -/

def isOkE (r : Except PyErr Json) : Bool :=
  match r with
  | .ok _ => true
  | .error _ => false

def send_action (post_data : Json) (o : FetchOutcome) : Except PyErr (Bool × LimiterEffect) :=
  match o with
  | .denied => .ok (false, .noEffect)
  | .http429 _ => .ok (false, .rateLimit)
  | .jsonBody j =>
    match objGet j "actionStatus" with
    | .error e => .error e
    | .ok st =>
      if pyLower (pyStr st) = "ok" then .ok (true, .success)
      else
        match objGet j "actionCmd" with
        | .error e => .error e
        | .ok _ =>
          match objGet j "deviceName" with
          | .error e => .error e
          | .ok _ =>
            match objGet j "actionMsg" with
            | .error e => .error e
            | .ok _ => .ok (false, .success)
  | .textBody _ t =>
    let eff := if pyInStr "too many requests" (pyLower t) then LimiterEffect.rateLimit
      else LimiterEffect.noEffect
    match objGet post_data "actionNum" with
    | .ok _ => .ok (false, eff)
    | .error e => .error e
  | .connErr => .ok (false, .noEffect)

/-- Counterexample to C4: a JSON response whose `actionStatus` is "fail"
but which lacks the `actionCmd` field makes `send_action` raise KeyError
from the error-log line instead of returning `false`. -/
theorem send_action_raises_on_bare_failure :
    send_action (.obj [("actionCmd", .str "area-arm"), ("actionNum", .int 1)])
        (.jsonBody (.obj [("actionStatus", .str "fail")]))
      = .error .keyError ∧
    ∀ eff, send_action (.obj [("actionCmd", .str "area-arm"), ("actionNum", .int 1)])
        (.jsonBody (.obj [("actionStatus", .str "fail")]))
      ≠ .ok (false, eff) := by
  refine ⟨rfl, fun eff h => ?_⟩
  rw [show send_action (.obj [("actionCmd", .str "area-arm"), ("actionNum", .int 1)])
      (.jsonBody (.obj [("actionStatus", .str "fail")])) = .error .keyError from rfl] at h
  exact Except.noConfusion h

/-- C4 (amended): `send_action` returns `true` exactly when the body
parses as JSON whose `actionStatus` field exists and case-insensitively
equals "ok".  It returns `false` without raising on rate-limiter denial,
HTTP 429, connector error, a non-JSON body (given the posted dict carries
`actionNum`, as every caller's does), and a JSON response whose
`actionStatus` differs from "ok" provided the response also carries the
`actionCmd`/`deviceName`/`actionMsg` fields read by the error log; a JSON
response missing `actionStatus`, or missing those log fields when the
status is not "ok", raises KeyError to the caller. -/
theorem send_action_ok_iff (pd : Json) :
    (∀ o : FetchOutcome, (∃ eff, send_action pd o = .ok (true, eff)) ↔
      ∃ j st, o = .jsonBody j ∧ objGet j "actionStatus" = .ok st ∧ pyLower (pyStr st) = "ok") ∧
    (∀ j st, objGet j "actionStatus" = .ok st → pyLower (pyStr st) ≠ "ok" →
      isOkE (objGet j "actionCmd") = true → isOkE (objGet j "deviceName") = true →
      isOkE (objGet j "actionMsg") = true →
      send_action pd (.jsonBody j) = .ok (false, .success)) ∧
    (∀ status t, isOkE (objGet pd "actionNum") = true →
      ∃ eff, send_action pd (.textBody status t) = .ok (false, eff)) ∧
    send_action pd .denied = .ok (false, .noEffect) ∧
    (∀ t, send_action pd (.http429 t) = .ok (false, .rateLimit)) ∧
    send_action pd .connErr = .ok (false, .noEffect) := by
  refine ⟨?_, ?_, ?_, rfl, fun t => rfl, rfl⟩
  · intro o
    constructor
    · rintro ⟨eff, heff⟩
      cases o with
      | denied => simp [send_action] at heff
      | http429 t => simp [send_action] at heff
      | connErr => simp [send_action] at heff
      | textBody status t =>
        cases hn : objGet pd "actionNum" <;> simp [send_action, hn] at heff
      | jsonBody j =>
        cases hst : objGet j "actionStatus" with
        | error e => simp [send_action, hst] at heff
        | ok st =>
          by_cases hok : pyLower (pyStr st) = "ok"
          · exact ⟨j, st, rfl, hst, hok⟩
          · exfalso
            cases h1 : objGet j "actionCmd" with
            | error e1 => simp [send_action, hst, hok, h1] at heff
            | ok v1 =>
              cases h2 : objGet j "deviceName" with
              | error e2 => simp [send_action, hst, hok, h1, h2] at heff
              | ok v2 =>
                cases h3 : objGet j "actionMsg" with
                | error e3 => simp [send_action, hst, hok, h1, h2, h3] at heff
                | ok v3 => simp [send_action, hst, hok, h1, h2, h3] at heff
    · rintro ⟨j, st, rfl, hst, hok⟩
      exact ⟨.success, by simp [send_action, hst, hok]⟩
  · intro j st hst hok h1 h2 h3
    cases hc : objGet j "actionCmd" with
    | error e1 => rw [hc] at h1; exact absurd h1 (by simp [isOkE])
    | ok v1 =>
      cases hd : objGet j "deviceName" with
      | error e2 => rw [hd] at h2; exact absurd h2 (by simp [isOkE])
      | ok v2 =>
        cases hm : objGet j "actionMsg" with
        | error e3 => rw [hm] at h3; exact absurd h3 (by simp [isOkE])
        | ok v3 => simp [send_action, hst, hok, hc, hd, hm]
  · intro status t hnum
    cases hn : objGet pd "actionNum" with
    | error e => rw [hn] at hnum; exact absurd hnum (by simp [isOkE])
    | ok v =>
      refine ⟨if pyInStr "too many requests" (pyLower t) then .rateLimit else .noEffect, ?_⟩
      simp [send_action, hn]

/-- Witness for the amended C4 at concrete inputs: an "OK" status returns
true; a "fail" status with the log fields present returns false. -/
theorem send_action_ok_iff_witness :
    (∃ eff, send_action (.obj [("actionNum", .int 1)])
        (.jsonBody (.obj [("actionStatus", .str "OK")])) = .ok (true, eff)) ∧
    send_action (.obj [("actionNum", .int 1)])
        (.jsonBody (.obj [("actionStatus", .str "fail"), ("actionCmd", .str "area-arm"),
          ("deviceName", .str "d"), ("actionMsg", .str "m")]))
      = .ok (false, .success) :=
  ⟨((send_action_ok_iff (.obj [("actionNum", .int 1)])).1
        (.jsonBody (.obj [("actionStatus", .str "OK")]))).mpr
      ⟨.obj [("actionStatus", .str "OK")], .str "OK", rfl, rfl, by decide⟩,
    (send_action_ok_iff (.obj [("actionNum", .int 1)])).2.1
      (.obj [("actionStatus", .str "fail"), ("actionCmd", .str "area-arm"),
        ("deviceName", .str "d"), ("actionMsg", .str "m")])
      (.str "fail") rfl (by decide) rfl rfl rfl⟩

/-! `get_changed_by_json` (olarm_api.py lines 217-306).  The outcome type
adds the 404 branch this endpoint handles; the composite
`strptime(time.ctime(n)).strftime(...)` conversion is abstracted as a
total formatting function `fmtC : Int → String` (its `except TypeError`
is reached only when `int()` itself raises TypeError). -/

inductive CbOutcome where
  | denied
  | http404
  | http429 (text : String)
  | jsonBody (j : Json)
  | textBody (status : ℕ) (text : String)
  | connErr

/-- The commands excluded by the loop filter (lines 264-271). -/
def cbExcluded : List String :=
  ["zone-bypass", "pgm-open", "pgm-close", "pgm-pulse", "ukey-activate"]

/-- Python `x in [list of strings]`. -/
def pyInList (x : Json) (ss : List String) : Bool :=
  ss.any (fun s => pyEq x (.str s))

/-- The default record built at line 222. -/
def cbDefault : Json :=
  .obj [("userFullname", .str "No User"), ("actionCreated", .int 0), ("actionCmd", .null)]

/-- One iteration of the loop at lines 262-276, in Python's left-to-right
short-circuit order. -/
def cbStep (area : Int) (rd c : Json) : Except PyErr Json :=
  match objGet c "actionCmd" with
  | .error e => .error e
  | .ok cmd =>
    if pyInList cmd cbExcluded then .ok rd
    else
      match objGet c "actionNum" with
      | .error e => .error e
      | .ok numJ =>
        match pyInt numJ with
        | .error e => .error e
        | .ok num =>
          if num = area then
            match objGet rd "actionCreated" with
            | .error e => .error e
            | .ok curJ =>
              match pyInt curJ with
              | .error e => .error e
              | .ok cur =>
                match objGet c "actionCreated" with
                | .error e => .error e
                | .ok newJ =>
                  match pyInt newJ with
                  | .error e => .error e
                  | .ok nw => .ok (if cur < nw then c else rd)
          else .ok rd

def cbLoop (area : Int) : List Json → Json → Except PyErr Json
  | [], rd => .ok rd
  | c :: cs, rd =>
    match cbStep area rd c with
    | .ok rd' => cbLoop area cs rd'
    | .error e => .error e

/-- The unconditional formatting block at lines 286-296: convert
`return_data["actionCreated"]` with `int()` and store the formatted
string; only TypeError is caught (leaving the record unchanged). -/
def cbFormat (fmtC : Int → String) (rd : Json) : Except PyErr Json :=
  match objGet rd "actionCreated" with
  | .error e => .error e
  | .ok v =>
    match pyInt v with
    | .ok n => objSet rd "actionCreated" (.str (fmtC n))
    | .error .typeError => .ok rd
    | .error e => .error e

def get_changed_by_json (fmtC : Int → String) (area : Int) (o : CbOutcome) : Except PyErr Json :=
  match o with
  | .denied => .ok cbDefault
  | .http404 => .ok cbDefault
  | .http429 _ => .ok cbDefault
  | .connErr => .ok cbDefault
  | .textBody _ _ => cbFormat fmtC cbDefault
  | .jsonBody j =>
    match pyIterList j with
    | .error e => .error e
    | .ok cs =>
      match cbLoop area cs cbDefault with
      | .error e => .error e
      | .ok rd => cbFormat fmtC rd

def intFieldOk (c : Json) (k : String) : Bool :=
  match objGet c k with
  | .ok v =>
    match pyInt v with
    | .ok _ => true
    | .error _ => false
  | .error _ => false

/-- An action entry whose three fields evaluate without raising. -/
def cbWellFormed (c : Json) : Bool :=
  isOkE (objGet c "actionCmd") && intFieldOk c "actionNum" && intFieldOk c "actionCreated"

/-- An action entry selected by the loop filter against the default
record: command outside the bypass/PGM/ukey set, actionNum equal to the
requested area, actionCreated strictly greater than 0. -/
def cbQualifies (area : Int) (c : Json) : Bool :=
  match objGet c "actionCmd" with
  | .error _ => false
  | .ok cmd =>
    if pyInList cmd cbExcluded then false
    else
      match objGet c "actionNum" with
      | .error _ => false
      | .ok numJ =>
        match pyInt numJ with
        | .error _ => false
        | .ok num =>
          if num = area then
            match objGet c "actionCreated" with
            | .error _ => false
            | .ok newJ =>
              match pyInt newJ with
              | .error _ => false
              | .ok nw => decide (0 < nw)
          else false

theorem cbStep_default (area : Int) (c : Json) (hwf : cbWellFormed c = true)
    (hq : cbQualifies area c = false) :
    cbStep area cbDefault c = .ok cbDefault := by
  simp only [cbWellFormed, Bool.and_eq_true] at hwf
  obtain ⟨⟨hcmd, hnum⟩, hcr⟩ := hwf
  cases h1 : objGet c "actionCmd" with
  | error e => rw [h1] at hcmd; simp [isOkE] at hcmd
  | ok cmd =>
    cases h2 : objGet c "actionNum" with
    | error e => simp [intFieldOk, h2] at hnum
    | ok numJ =>
      cases h3 : pyInt numJ with
      | error e => simp [intFieldOk, h2, h3] at hnum
      | ok num =>
        cases h4 : objGet c "actionCreated" with
        | error e => simp [intFieldOk, h4] at hcr
        | ok newJ =>
          cases h5 : pyInt newJ with
          | error e => simp [intFieldOk, h4, h5] at hcr
          | ok nw =>
            by_cases hin : pyInList cmd cbExcluded = true
            · simp [cbStep, h1, hin]
            · by_cases harea : num = area
              · simp only [cbQualifies, h1, h2, h3, h4, h5] at hq
                rw [if_neg hin, if_pos harea] at hq
                have hnw : ¬ (0 : Int) < nw := of_decide_eq_false hq
                have hd0 : objGet cbDefault "actionCreated" = .ok (.int 0) := rfl
                have hd1 : pyInt (.int 0) = .ok (0 : Int) := rfl
                simp [cbStep, h1, hin, h2, h3, harea, h4, h5, hd0, hd1, hnw]
              · simp [cbStep, h1, hin, h2, h3, harea]

theorem cbLoop_default (area : Int) (cs : List Json)
    (h : ∀ c ∈ cs, cbWellFormed c = true ∧ cbQualifies area c = false) :
    cbLoop area cs cbDefault = .ok cbDefault := by
  induction cs with
  | nil => rfl
  | cons c cs ih =>
    have hc := h c (by simp)
    unfold cbLoop
    rw [cbStep_default area c hc.1 hc.2]
    exact ih (fun c' hc' => h c' (by simp [hc']))

/-- C10: on a parseable action list with no qualifying entry (no entry
whose command is outside the bypass/PGM/ukey set, whose actionNum equals
the requested area and whose actionCreated is strictly positive),
`get_changed_by_json` returns userFullname "No User" and actionCmd None
but actionCreated formatted from Unix timestamp 0 — a string, not the
integer 0; only the early-return paths (rate-limiter denial, 404, 429,
connector error) return the default record with actionCreated still 0. -/
theorem get_changed_by_json_no_match (fmtC : Int → String) (area : Int) (cs : List Json)
    (h : ∀ c ∈ cs, cbWellFormed c = true ∧ cbQualifies area c = false) :
    get_changed_by_json fmtC area (.jsonBody (.arr cs))
      = .ok (.obj [("userFullname", .str "No User"),
          ("actionCreated", .str (fmtC 0)), ("actionCmd", .null)]) ∧
    Json.str (fmtC 0) ≠ Json.int 0 ∧
    get_changed_by_json fmtC area .denied = .ok cbDefault ∧
    get_changed_by_json fmtC area .http404 = .ok cbDefault ∧
    (∀ t, get_changed_by_json fmtC area (.http429 t) = .ok cbDefault) ∧
    get_changed_by_json fmtC area .connErr = .ok cbDefault ∧
    objGet cbDefault "actionCreated" = .ok (.int 0) := by
    refine ⟨?_, fun hcontra => Json.noConfusion hcontra, rfl, rfl, fun t => rfl, rfl, rfl⟩
    have hl := cbLoop_default area cs h
    have hiter : pyIterList (.arr cs) = .ok cs := rfl
    simp only [get_changed_by_json, hiter, hl]
    rfl

/-- Witness for C10 at a concrete input: a single bypass action (command
in the excluded set) leaves the default record, whose actionCreated comes
back as the formatted epoch string. -/
theorem get_changed_by_json_no_match_witness :
    (∀ c ∈ [Json.obj [("actionCmd", .str "zone-bypass"), ("actionNum", .int 1),
        ("actionCreated", .int 5)]],
      cbWellFormed c = true ∧ cbQualifies 1 c = false) ∧
    get_changed_by_json (fun _ => "Thu 01 Jan 1970 02:00:00") 1
        (.jsonBody (.arr [Json.obj [("actionCmd", .str "zone-bypass"), ("actionNum", .int 1),
          ("actionCreated", .int 5)]]))
      = .ok (.obj [("userFullname", .str "No User"),
          ("actionCreated", .str "Thu 01 Jan 1970 02:00:00"), ("actionCmd", .null)]) :=
  ⟨by decide,
    (get_changed_by_json_no_match (fun _ => "Thu 01 Jan 1970 02:00:00") 1
      [Json.obj [("actionCmd", .str "zone-bypass"), ("actionNum", .int 1),
        ("actionCreated", .int 5)]] (by decide)).1⟩

/-! State decoders (olarm_api.py lines 330-640).  Record structures carry
the dict fields each decoder appends; label/type values stay `Json`
because the source passes them through unconverted. -/

structure ZoneRec where
  name : Json
  state : String
  last_changed : Option String
  type : Json
  zone_number : ℕ

structure BypassRec where
  name : Json
  state : String
  last_changed : Option String
  zone_number : ℕ

structure PanelRec where
  name : String
  state : Json
  area_number : ℕ

structure PgmRec where
  name : Json
  enabled : Bool
  pulse : Bool
  state : Bool
  pgm_number : ℕ

structure UkeyRec where
  name : Json
  state : Bool
  ukey_number : ℕ

@[simp] theorem bind_ok_py {α β : Type} (a : α) (f : α → Except PyErr β) :
    (Except.ok a >>= f) = f a := rfl

@[simp] theorem bind_error_py {α β : Type} (e : PyErr) (f : α → Except PyErr β) :
    ((Except.error e : Except PyErr α) >>= f) = .error e := rfl

@[simp] theorem pure_eq_ok_py {α : Type} (a : α) : (pure a : Except PyErr α) = .ok a := rfl

@[simp] theorem map_ok_py {α β : Type} (f : α → β) (a : α) :
    (f <$> (Except.ok a : Except PyErr α)) = .ok (f a) := rfl

@[simp] theorem map_error_py {α β : Type} (f : α → β) (e : PyErr) :
    (f <$> (Except.error e : Except PyErr α)) = .error e := rfl

/-- Kinds caught by the broad decoder handlers `(DictionaryKeyError,
KeyError, IndexError, ListIndexError)`. -/
def caughtKI : PyErr → Bool
  | .keyError => true
  | .indexError => true
  | _ => false

/-- Kinds caught by the per-zone timestamp handler
`(TypeError, ValueError, KeyError, IndexError)`. -/
def caughtTVKI : PyErr → Bool
  | .typeError => true
  | .valueError => true
  | .keyError => true
  | .indexError => true
  | _ => false

/-- Lines 343-347 and 430-434: the zone state character test
(`str(olarm_state["zones"][zone]).lower() == target` guarded by
`zone < len(olarm_state.get("zones", []))`). -/
def zoneStateChar (target : String) (os : Json) (zone : ℕ) : Except PyErr String := do
  let zonesD ← pyGetD os "zones" (.arr [])
  let zlen ← pyLen zonesD
  if zone < zlen then do
    let zj ← objGet os "zones"
    let cj ← pyIndex zj zone
    pure (if pyLower (pyStr cj) = target then "on" else "off")
  else pure "off"

/-- Lines 349-360 / 436-446: the per-zone timestamp block.  The composite
`strptime(time.ctime(int(stamp) / 1000)).strftime(...)` conversion (plus
the bypass decoder's extra 2-hour offset) is abstracted as the caller's
total `fmt`; the `except (TypeError, ValueError, KeyError, IndexError)`
yields `None`. -/
def sensorStamp (fmt : Int → String) (os : Json) (zone : ℕ) : Except PyErr (Option String) :=
  match pyGetD os "zonesStamp" (.arr []) with
  | .error e => .error e
  | .ok stampsD =>
    match pyLen stampsD with
    | .error e => if caughtTVKI e then .ok none else .error e
    | .ok n =>
      if zone < n then
        match objGet os "zonesStamp" with
        | .error e => if caughtTVKI e then .ok none else .error e
        | .ok sj =>
          match pyIndex sj zone with
          | .error e => if caughtTVKI e then .ok none else .error e
          | .ok v =>
            match pyInt v with
            | .error e => if caughtTVKI e then .ok none else .error e
            | .ok k => .ok (some (fmt k))
      else .ok none

/-- Lines 364-367 / 449-452: zone display name (an explicit empty-string
label is kept, a falsy non-empty label falls back to `Zone {n+1}`). -/
def zoneNameFrom (labels : Json) (zone : ℕ) : Except PyErr Json := do
  let llen ← pyLen labels
  if zone < llen then do
    let lj ← pyIndex labels zone
    pure (if pyTruthy lj || pyEq lj (.str "") then lj
      else Json.str ("Zone " ++ toString (zone + 1)))
  else pure (Json.str ("Zone " ++ toString (zone + 1)))

/-- Line 368: `types[zone] if zone < len(types) else 0`. -/
def zoneTypeFrom (types : Json) (zone : ℕ) : Except PyErr Json := do
  let tlen ← pyLen types
  if zone < tlen then pyIndex types zone else pure (Json.int 0)

/-- One iteration of the zone loop of `get_sensor_states`
(lines 343-378). -/
def sensorZoneStep (fmt : Int → String) (os oz : Json) (zone : ℕ) : Except PyErr ZoneRec := do
  let state ← zoneStateChar "a" os zone
  let last_changed ← sensorStamp fmt os zone
  let labels ← pyGetD oz "zonesLabels" (.arr [])
  let types ← pyGetD oz "zonesTypes" (.arr [])
  let name ← zoneNameFrom labels zone
  let ty ← zoneTypeFrom types zone
  pure (⟨name, state, last_changed, ty, zone⟩ : ZoneRec)

/-- The power loop of `get_sensor_states` (lines 387-408): each entry
appends a synthetic record and advances the zone counter; `int(value)`
errors are not in the caught set and stop the loop. -/
def powerLoop : List (String × Json) → ℕ → List ZoneRec × Option PyErr
  | [], _ => ([], none)
  | (k, v) :: rest, z =>
    match pyInt v with
    | .error e => ([], some e)
    | .ok n =>
      let state := if n = 1 then "on" else "off"
      let key := if k = "Batt" then "Battery" else k
      let sensortype : Int := if k = "Batt" then 1001 else 1000
      let rec1 : ZoneRec := ⟨Json.str ("Powered by " ++ key), state, none, Json.int sensortype, z⟩
      let rest1 := powerLoop rest (z + 1)
      (rec1 :: rest1.1, rest1.2)

/-- Lines 381-386: pick the structured `power` map, or synthesize AC/Batt
entries from the legacy `powerAC` / `powerBattery` fields. -/
def sensorPower (os : Json) (startZone : ℕ) : List ZoneRec × Option PyErr :=
  match pyGetD os "power" (.obj []) with
  | .error e => ([], some e)
  | .ok p0 =>
    match (if !pyTruthy p0 then pyInE (.str "powerAC") os else .ok false) with
    | .error e => ([], some e)
    | .ok useLegacy =>
      let power : Except PyErr Json :=
        if useLegacy then do
          let ac ← pyGetD os "powerAC" Json.null
          let batt ← pyGetD os "powerBattery" Json.null
          pure (Json.obj [("AC", .int (if pyEq ac (.str "ok") then 1 else 0)),
            ("Batt", .int (if pyEq batt (.str "ok") then 1 else 0))])
        else pure p0
      match power with
      | .error e => ([], some e)
      | .ok pj =>
        match pyItems pj with
        | .error e => ([], some e)
        | .ok kvs => powerLoop kvs startZone

/-- `get_sensor_states` (lines 330-416).  The two subscripts at lines
337-338 run before the `try`; inside it, a completed zone loop with
`zonesLimit == 0` leaves the loop variable unbound so `zone = zone + 1`
at line 380 raises NameError (not in the caught set); caught
KeyError/IndexError return the partial `self.data`. -/
def get_sensor_states (fmt : Int → String) (dj : Json) : Except PyErr (List ZoneRec) :=
  match objGet dj "deviceState" with
  | .error e => .error e
  | .ok os =>
    match objGet dj "deviceProfile" with
    | .error e => .error e
    | .ok oz =>
      let body : List ZoneRec × Option PyErr :=
        match (do pyRangeLen (← objGet oz "zonesLimit") : Except PyErr ℕ) with
        | .error e => ([], some e)
        | .ok limit =>
          match pyFor (sensorZoneStep fmt os oz) limit with
          | (recs, some e) => (recs, some e)
          | (recs, none) =>
            if limit = 0 then (recs, some .nameError)
            else
              let pr := sensorPower os limit
              (recs ++ pr.1, pr.2)
      match body with
      | (recs, none) => .ok recs
      | (recs, some e) => if caughtKI e then .ok recs else .error e

/-- One iteration of the zone loop of `get_sensor_bypass_states`
(lines 430-461): bypass bit "b", no type field, timestamp formatting
(with its 2-hour offset) abstracted in `fmt2`. -/
def bypassZoneStep (fmt2 : Int → String) (os oz : Json) (zone : ℕ) : Except PyErr BypassRec := do
  let state ← zoneStateChar "b" os zone
  let last_changed ← sensorStamp fmt2 os zone
  let labels ← pyGetD oz "zonesLabels" (.arr [])
  let name ← zoneNameFrom labels zone
  pure (⟨name, state, last_changed, zone⟩ : BypassRec)

/-- `get_sensor_bypass_states` (lines 418-469): no power section and no
post-loop use of the loop variable. -/
def get_sensor_bypass_states (fmt2 : Int → String) (dj : Json) : Except PyErr (List BypassRec) :=
  match objGet dj "deviceState" with
  | .error e => .error e
  | .ok os =>
    match objGet dj "deviceProfile" with
    | .error e => .error e
    | .ok oz =>
      let body : List BypassRec × Option PyErr :=
        match (do pyRangeLen (← objGet oz "zonesLimit") : Except PyErr ℕ) with
        | .error e => ([], some e)
        | .ok limit => pyFor (bypassZoneStep fmt2 os oz) limit
      match body with
      | (recs, none) => .ok recs
      | (recs, some e) => if caughtKI e then .ok recs else .error e

/-- One iteration of the area loop of `get_panel_states` (lines 485-507):
name from the label array when it is a list, long enough, and non-empty;
areas beyond the status array are skipped entirely. -/
def panelStep (os : Json) (olarm_zones : Json) (a : ℕ) : Except PyErr (Option PanelRec) :=
  let nameJ : Json :=
    match olarm_zones with
    | .arr ls =>
      if a < ls.length then
        (if !pyEq (ls.getD a Json.null) (.str "") then ls.getD a Json.null
          else .str ("Area " ++ toString (a + 1)))
      else .str ("Area " ++ toString (a + 1))
    | _ => .str ("Area " ++ toString (a + 1))
  let name := pyStr nameJ
  do
    let areasD ← pyGetD os "areas" (.arr [])
    let alen ← pyLen areasD
    if a < alen then do
      let aj ← objGet os "areas"
      let stv ← pyIndex aj a
      pure (some (⟨name, stv, a + 1⟩ : PanelRec))
    else pure none

/-- The area loop: the per-iteration `except (DictionaryKeyError,
KeyError)` logs and continues with the next index. -/
def panelGo (os oz : Json) : ℕ → ℕ → List PanelRec → Except PyErr (List PanelRec)
  | _, 0, acc => .ok acc.reverse
  | i, fuel + 1, acc =>
    match panelStep os oz i with
    | .ok (some r) => panelGo os oz (i + 1) fuel (r :: acc)
    | .ok none => panelGo os oz (i + 1) fuel acc
    | .error .keyError => panelGo os oz (i + 1) fuel acc
    | .error e => .error e

/-- `get_panel_states` (lines 471-509): the `.get("areasLimit", ...)`
default argument `len(olarm_zones)` is evaluated eagerly; no surrounding
try, so any error outside the per-iteration handler propagates. -/
def get_panel_states (dj : Json) : Except PyErr (List PanelRec) := do
  let os ← objGet dj "deviceState"
  let zonesP ← objGet dj "deviceProfile"
  let olarm_zones ← pyGetD zonesP "areasLabels" (.arr [])
  let dflt ← pyLen olarm_zones
  let acJ ← pyGetD zonesP "areasLimit" (.int dflt)
  let area_count ← pyRangeLen acJ
  panelGo os olarm_zones 0 area_count []

/-- Python `str(x)` after the `is not None` guard of line 559. -/
def pyStrOrEmpty : Json → String
  | .null => ""
  | v => pyStr v

/-- One iteration of the PGM loop (lines 541-579).  Every subscript is
guarded, so the iteration itself is total; `none` is the `continue` taken
on an empty setup-control string (an out-of-range index reads as ""). -/
def pgmStep (pgm_state pgm_labels pgm_setup : Json) (i : ℕ) : Option PgmRec :=
  let state : Bool :=
    match pgm_state with
    | .arr ps => if i < ps.length then pyLower (pyStr (ps.getD i Json.null)) == "a" else false
    | _ => false
  let name : Json :=
    match pgm_labels with
    | .arr ls =>
      if i < ls.length then ls.getD i Json.null else .str ("PGM " ++ toString (i + 1))
    | _ => .str ("PGM " ++ toString (i + 1))
  let setup_val : Json :=
    match pgm_setup with
    | .arr ss => if i < ss.length then ss.getD i Json.null else .str ""
    | _ => .str ""
  if pyEq setup_val (.str "") then none
  else
    let setup_str := pyStrOrEmpty setup_val
    let enabled := decide (0 < setup_str.length) && (setup_str.data.getD 0 ' ' == '1')
    let pulse := decide (2 < setup_str.length) && (setup_str.data.getD 2 ' ' == '1')
    let number := i + 1
    let name2 := if pyEq name (.str "") then Json.str ("PGM " ++ toString number) else name
    some ⟨name2, enabled, pulse, state, number⟩

/-- Lines 518-537: the PGM field setup, with the `or`-defaults and the
zero/absent-limit substitution by the label-array length. -/
def pgmPrep (dj : Json) : Except PyErr (Option (Json × Json × Json × Json)) := do
  let profile ← pyGetD dj "deviceProfile" Json.null
  if !profile.isObj then pure none
  else do
    let state_obj ← pyGetD dj "deviceState" (.obj [])
    let pgm_state ← pyGetD state_obj "pgm" Json.null
    let labels0 ← pyGetD profile "pgmLabels" Json.null
    let pgm_labels := if pyTruthy labels0 then labels0 else Json.arr []
    let limit0 ← pyGetD profile "pgmLimit" Json.null
    let pgm_limit := if pyTruthy limit0 then limit0 else Json.int 0
    let setup0 ← pyGetD profile "pgmControl" Json.null
    let pgm_setup := if pyTruthy setup0 then setup0 else Json.arr []
    let pgm_limit2 := if pyEq pgm_limit (.int 0) && pgm_labels.isArr
      then Json.int pgm_labels.arrLen else pgm_limit
    pure (some (pgm_state, pgm_labels, pgm_setup, pgm_limit2))

/-- `get_pgm_zones` (lines 511-585).  The first handler catches KeyError
and returns `[]`; the second surrounds `int(pgm_limit)` and the loop —
since each loop iteration is total, a caught error there can only come
from `int(pgm_limit)`, with the accumulated list still empty. -/
def get_pgm_zones (dj : Json) : Except PyErr (List PgmRec) :=
  match pgmPrep dj with
  | .error e => if e = .keyError then .ok [] else .error e
  | .ok none => .ok []
  | .ok (some (ps, ls, ss, lim)) =>
    match pyInt lim with
    | .error e => if caughtKI e then .ok [] else .error e
    | .ok n => .ok ((List.range n.toNat).filterMap (pgmStep ps ls ss))

/-- One iteration of the Ukey loop (lines 611-624): both subscripts are
unguarded, and `int()` on the control value can raise. -/
def ukeyStep (ukey_state ukey_labels : Json) (i : ℕ) : Except PyErr UkeyRec := do
  let sv ← pyIndex ukey_state i
  let n ← pyInt sv
  let state := n == 1
  let nameJ ← pyIndex ukey_labels i
  let name := if pyEq nameJ (.str "") then Json.str ("Ukey " ++ toString (i + 1)) else nameJ
  pure (⟨name, state, i + 1⟩ : UkeyRec)

/-- Lines 594-607: all three of labels/limit/control must be present in
the device profile, else the decoder returns `[]`. -/
def ukeyPrep (dj : Json) : Except PyErr (Option (Json × Json × Json)) := do
  let profile ← objGet dj "deviceProfile"
  let h1 ← pyInE (.str "ukeysLabels") profile
  if h1 then do
    let h2 ← pyInE (.str "ukeysLimit") profile
    if h2 then do
      let h3 ← pyInE (.str "ukeysControl") profile
      if h3 then do
        let ls ← objGet profile "ukeysLabels"
        let lim ← objGet profile "ukeysLimit"
        let ctl ← objGet profile "ukeysControl"
        pure (some (ls, lim, ctl))
      else pure none
    else pure none
  else pure none

/-- `get_ukey_zones` (lines 587-636): a caught KeyError inside the loop
returns `[]` (line 630), and the outer handler's caught IndexError also
returns `[]` (line 636) — both discard the partial `ukeys` list. -/
def get_ukey_zones (dj : Json) : Except PyErr (List UkeyRec) :=
  match ukeyPrep dj with
  | .error e => if e = .keyError then .ok [] else .error e
  | .ok none => .ok []
  | .ok (some (ls, lim, ctl)) =>
    match pyRangeLen lim with
    | .error e => if caughtKI e then .ok [] else .error e
    | .ok n =>
      match pyFor (ukeyStep ctl ls) n with
      | (recs, none) => .ok recs
      | (_, some .keyError) => .ok []
      | (_, some .indexError) => .ok []
      | (_, some e) => .error e

/-! Shape builders and closed forms used to characterize the decoders on
inputs whose fields carry the documented types. -/

def mkDeviceState (zs st : List Json) (pw : List (String × Int)) : Json :=
  .obj [("zones", .arr zs), ("zonesStamp", .arr st),
    ("power", .obj (pw.map (fun p => (p.1, Json.int p.2))))]

def mkDeviceProfile (ls ts : List Json) (limit : ℕ) : Json :=
  .obj [("zonesLimit", .int limit), ("zonesLabels", .arr ls), ("zonesTypes", .arr ts)]

def mkSensorJson (zs st ls ts : List Json) (limit : ℕ) (pw : List (String × Int)) : Json :=
  .obj [("deviceState", mkDeviceState zs st pw), ("deviceProfile", mkDeviceProfile ls ts limit)]

theorem getElem?_some_getD (l : List Json) (i : ℕ) (h : i < l.length) :
    l[i]? = some (l.getD i Json.null) := by
  induction l generalizing i with
  | nil => simp at h
  | cons x xs ih =>
    cases i with
    | zero => simp [List.getD]
    | succ n =>
      have hn := ih n (by simpa using h)
      simpa [List.getD] using hn

theorem getElem?_none_of_ge (l : List Json) (i : ℕ) (h : l.length ≤ i) :
    l[i]? = none := by
  induction l generalizing i with
  | nil => simp
  | cons x xs ih =>
    cases i with
    | zero => simp at h
    | succ n =>
      have hn := ih n (by simpa using h)
      simpa using hn

theorem pyIndex_arr_lt (xs : List Json) (i : ℕ) (h : i < xs.length) :
    pyIndex (.arr xs) i = .ok (xs.getD i Json.null) := by
  have hg := getElem?_some_getD xs i h
  simp only [pyIndex, List.get?_eq_getElem?, hg]

theorem pyIndex_arr_ge (xs : List Json) (i : ℕ) (h : xs.length ≤ i) :
    pyIndex (.arr xs) i = .error .indexError := by
  have hg := getElem?_none_of_ge xs i h
  simp only [pyIndex, List.get?_eq_getElem?, hg]

theorem pyInt_err_caught (j : Json) (e : PyErr) (h : pyInt j = .error e) :
    caughtTVKI e = true := by
  cases j with
  | null => simp [pyInt] at h; rw [← h]; rfl
  | bool b => simp [pyInt] at h
  | int n => simp [pyInt] at h
  | str s =>
    simp only [pyInt] at h
    cases hp : parsePyInt s with
    | some n => rw [hp] at h; simp at h
    | none => rw [hp] at h; simp at h; rw [← h]; rfl
  | arr xs => simp [pyInt] at h; rw [← h]; rfl
  | obj kvs => simp [pyInt] at h; rw [← h]; rfl

theorem zoneStateChar_arr (target : String) (zs st : List Json) (pw : List (String × Int))
    (zone : ℕ) :
    zoneStateChar target (mkDeviceState zs st pw) zone
      = .ok (if zone < zs.length ∧ pyLower (pyStr (zs.getD zone Json.null)) = target
          then "on" else "off") := by
  have h1 : pyGetD (mkDeviceState zs st pw) "zones" (.arr []) = .ok (.arr zs) := rfl
  have h2 : objGet (mkDeviceState zs st pw) "zones" = .ok (.arr zs) := rfl
  by_cases hz : zone < zs.length
  · by_cases hc : pyLower (pyStr (zs.getD zone Json.null)) = target
    · simp [zoneStateChar, h1, h2, pyLen, hz, pyIndex_arr_lt zs zone hz, hc]
    · simp [zoneStateChar, h1, h2, pyLen, hz, pyIndex_arr_lt zs zone hz, hc]
  · simp [zoneStateChar, h1, h2, pyLen, hz]

/-- Closed form of the zone display name on a list label array. -/
def zoneNameAt (ls : List Json) (zone : ℕ) : Json :=
  if zone < ls.length then
    (if pyTruthy (ls.getD zone Json.null) || pyEq (ls.getD zone Json.null) (.str "")
      then ls.getD zone Json.null else Json.str ("Zone " ++ toString (zone + 1)))
  else Json.str ("Zone " ++ toString (zone + 1))

theorem zoneNameFrom_arr (ls : List Json) (zone : ℕ) :
    zoneNameFrom (.arr ls) zone = .ok (zoneNameAt ls zone) := by
  by_cases hz : zone < ls.length
  · simp [zoneNameFrom, zoneNameAt, pyLen, hz, pyIndex_arr_lt ls zone hz]
  · simp [zoneNameFrom, zoneNameAt, pyLen, hz]

theorem zoneTypeFrom_arr (ts : List Json) (zone : ℕ) :
    zoneTypeFrom (.arr ts) zone
      = .ok (if zone < ts.length then ts.getD zone Json.null else Json.int 0) := by
  by_cases hz : zone < ts.length
  · simp [zoneTypeFrom, pyLen, hz, pyIndex_arr_lt ts zone hz]
  · simp [zoneTypeFrom, pyLen, hz]

theorem sensorStamp_arr (fmt : Int → String) (zs st : List Json) (pw : List (String × Int))
    (zone : ℕ) :
    sensorStamp fmt (mkDeviceState zs st pw) zone
      = .ok (if zone < st.length
          then (pyInt (st.getD zone Json.null)).toOption.map fmt else none) := by
  have h1 : pyGetD (mkDeviceState zs st pw) "zonesStamp" (.arr []) = .ok (.arr st) := rfl
  have h2 : objGet (mkDeviceState zs st pw) "zonesStamp" = .ok (.arr st) := rfl
  by_cases hz : zone < st.length
  · simp only [sensorStamp, h1, pyLen]
    rw [if_pos hz]
    simp only [h2, pyIndex_arr_lt st zone hz]
    cases hp : pyInt (st.getD zone Json.null) with
    | ok k => simp [hz, hp, Except.toOption]
    | error e =>
      have hcau := pyInt_err_caught _ _ hp
      simp [hz, hp, hcau, Except.toOption]
  · simp only [sensorStamp, h1, pyLen]
    rw [if_neg hz]
    simp [hz]

/-- Closed form of one sensor zone record on documented-type inputs. -/
def sensorRecAt (fmt : Int → String) (zs st ls ts : List Json) (i : ℕ) : ZoneRec :=
  ⟨zoneNameAt ls i,
    if i < zs.length ∧ pyLower (pyStr (zs.getD i Json.null)) = "a" then "on" else "off",
    if i < st.length then (pyInt (st.getD i Json.null)).toOption.map fmt else none,
    if i < ts.length then ts.getD i Json.null else Json.int 0,
    i⟩

theorem sensorZoneStep_eq (fmt : Int → String) (zs st ls ts : List Json) (limit : ℕ)
    (pw : List (String × Int)) (i : ℕ) :
    sensorZoneStep fmt (mkDeviceState zs st pw) (mkDeviceProfile ls ts limit) i
      = .ok (sensorRecAt fmt zs st ls ts i) := by
  have hl : pyGetD (mkDeviceProfile ls ts limit) "zonesLabels" (.arr []) = .ok (.arr ls) := rfl
  have ht : pyGetD (mkDeviceProfile ls ts limit) "zonesTypes" (.arr []) = .ok (.arr ts) := rfl
  simp [sensorZoneStep, zoneStateChar_arr, sensorStamp_arr, hl, ht, zoneNameFrom_arr,
    zoneTypeFrom_arr, sensorRecAt]

/-- Closed form of the synthetic power records. -/
def powerExpectedGo : List (String × Int) → ℕ → List ZoneRec
  | [], _ => []
  | (k, v) :: rest, z =>
    ⟨Json.str ("Powered by " ++ (if k = "Batt" then "Battery" else k)),
      if v = 1 then "on" else "off", none,
      Json.int (if k = "Batt" then 1001 else 1000), z⟩ :: powerExpectedGo rest (z + 1)

theorem powerLoop_map (pw : List (String × Int)) :
    ∀ z, powerLoop (pw.map (fun p => (p.1, Json.int p.2))) z = (powerExpectedGo pw z, none) := by
  induction pw with
  | nil => intro z; rfl
  | cons p rest ih =>
    intro z
    rcases p with ⟨k, v⟩
    simp [powerLoop, pyInt, powerExpectedGo, ih (z + 1)]

theorem sensorPower_eq (zs st : List Json) (pw : List (String × Int)) (z : ℕ) :
    sensorPower (mkDeviceState zs st pw) z = (powerExpectedGo pw z, none) := by
  have h1 : pyGetD (mkDeviceState zs st pw) "power" (.obj [])
      = .ok (.obj (pw.map (fun p => (p.1, Json.int p.2)))) := rfl
  have h2 : pyInE (.str "powerAC") (mkDeviceState zs st pw) = .ok false := rfl
  by_cases hp : pyTruthy (Json.obj (pw.map (fun p => (p.1, Json.int p.2)))) = true
  · simp [sensorPower, h1, hp, pyItems, powerLoop_map pw z]
  · simp only [Bool.not_eq_true] at hp
    simp [sensorPower, h1, hp, h2, pyItems, powerLoop_map pw z]

theorem get_sensor_states_eq (fmt : Int → String) (zs st ls ts : List Json) (limit : ℕ)
    (pw : List (String × Int)) (h : 1 ≤ limit) :
    get_sensor_states fmt (mkSensorJson zs st ls ts limit pw)
      = .ok ((List.range limit).map (sensorRecAt fmt zs st ls ts)
          ++ powerExpectedGo pw limit) := by
  have hos : objGet (mkSensorJson zs st ls ts limit pw) "deviceState"
      = .ok (mkDeviceState zs st pw) := rfl
  have hoz : objGet (mkSensorJson zs st ls ts limit pw) "deviceProfile"
      = .ok (mkDeviceProfile ls ts limit) := rfl
  have hlim : objGet (mkDeviceProfile ls ts limit) "zonesLimit" = .ok (.int limit) := rfl
  have hrange : pyRangeLen (.int (limit : Int)) = .ok limit := by simp [pyRangeLen]
  have hfor := pyFor_ok (sensorZoneStep fmt (mkDeviceState zs st pw) (mkDeviceProfile ls ts limit))
    (sensorRecAt fmt zs st ls ts)
    (fun i => sensorZoneStep_eq fmt zs st ls ts limit pw i) limit
  have hpw := sensorPower_eq zs st pw limit
  simp only [get_sensor_states, hos, hoz, hlim, hrange, bind_ok_py, hfor, hpw]
  rw [if_neg (by omega : ¬ limit = 0)]

/-- Closed form of one bypass zone record on documented-type inputs. -/
def bypassRecAt (fmt2 : Int → String) (zs st ls : List Json) (i : ℕ) : BypassRec :=
  ⟨zoneNameAt ls i,
    if i < zs.length ∧ pyLower (pyStr (zs.getD i Json.null)) = "b" then "on" else "off",
    if i < st.length then (pyInt (st.getD i Json.null)).toOption.map fmt2 else none,
    i⟩

theorem bypassZoneStep_eq (fmt2 : Int → String) (zs st ls ts : List Json) (limit : ℕ)
    (pw : List (String × Int)) (i : ℕ) :
    bypassZoneStep fmt2 (mkDeviceState zs st pw) (mkDeviceProfile ls ts limit) i
      = .ok (bypassRecAt fmt2 zs st ls i) := by
  have hl : pyGetD (mkDeviceProfile ls ts limit) "zonesLabels" (.arr []) = .ok (.arr ls) := rfl
  simp [bypassZoneStep, zoneStateChar_arr, sensorStamp_arr, hl, zoneNameFrom_arr, bypassRecAt]

theorem get_sensor_bypass_states_eq (fmt2 : Int → String) (zs st ls ts : List Json)
    (limit : ℕ) (pw : List (String × Int)) :
    get_sensor_bypass_states fmt2 (mkSensorJson zs st ls ts limit pw)
      = .ok ((List.range limit).map (bypassRecAt fmt2 zs st ls)) := by
  have hos : objGet (mkSensorJson zs st ls ts limit pw) "deviceState"
      = .ok (mkDeviceState zs st pw) := rfl
  have hoz : objGet (mkSensorJson zs st ls ts limit pw) "deviceProfile"
      = .ok (mkDeviceProfile ls ts limit) := rfl
  have hlim : objGet (mkDeviceProfile ls ts limit) "zonesLimit" = .ok (.int limit) := rfl
  have hrange : pyRangeLen (.int (limit : Int)) = .ok limit := by simp [pyRangeLen]
  have hfor := pyFor_ok
    (bypassZoneStep fmt2 (mkDeviceState zs st pw) (mkDeviceProfile ls ts limit))
    (bypassRecAt fmt2 zs st ls)
    (fun i => bypassZoneStep_eq fmt2 zs st ls ts limit pw i) limit
  simp only [get_sensor_bypass_states, hos, hoz, hlim, hrange, bind_ok_py, hfor]

def mkPanelJson (als areas : List Json) (alimit : Option ℕ) : Json :=
  .obj [("deviceState", .obj [("areas", .arr areas)]),
    ("deviceProfile", .obj (("areasLabels", Json.arr als) ::
      (match alimit with
       | some n => [("areasLimit", Json.int n)]
       | none => [])))]

/-- Closed form of one panel area record on documented-type inputs. -/
def panelRecAt (als areas : List Json) (a : ℕ) : Option PanelRec :=
  let nameJ : Json :=
    if a < als.length then
      (if !pyEq (als.getD a Json.null) (.str "") then als.getD a Json.null
        else .str ("Area " ++ toString (a + 1)))
    else .str ("Area " ++ toString (a + 1))
  if a < areas.length then some ⟨pyStr nameJ, areas.getD a Json.null, a + 1⟩ else none

theorem panelStep_eq (als areas : List Json) (a : ℕ) :
    panelStep (.obj [("areas", .arr areas)]) (.arr als) a = .ok (panelRecAt als areas a) := by
  have h1 : pyGetD (Json.obj [("areas", .arr areas)]) "areas" (.arr []) = .ok (.arr areas) := rfl
  have h2 : objGet (Json.obj [("areas", .arr areas)]) "areas" = .ok (.arr areas) := rfl
  by_cases ha : a < areas.length
  · simp [panelStep, panelRecAt, h1, h2, pyLen, ha, pyIndex_arr_lt areas a ha]
  · simp [panelStep, panelRecAt, h1, h2, pyLen, ha]

theorem panelGo_ok (os oz : Json) (g : ℕ → Option PanelRec)
    (h : ∀ i, panelStep os oz i = .ok (g i)) :
    ∀ (fuel i : ℕ) (acc : List PanelRec),
      panelGo os oz i fuel acc = .ok (acc.reverse ++ (List.range' i fuel).filterMap g) := by
  intro fuel
  induction fuel with
  | zero => intro i acc; simp [panelGo]
  | succ fuel ih =>
    intro i acc
    cases hg : g i with
    | some r =>
      have hs : panelGo os oz i (fuel + 1) acc = panelGo os oz (i + 1) fuel (r :: acc) := by
        rw [panelGo, h i, hg]
      rw [hs, ih]
      simp [List.range'_succ, hg]
    | none =>
      have hs : panelGo os oz i (fuel + 1) acc = panelGo os oz (i + 1) fuel acc := by
        rw [panelGo, h i, hg]
      rw [hs, ih]
      simp [List.range'_succ, hg]

theorem get_panel_states_eq (als areas : List Json) (alimit : Option ℕ) :
    get_panel_states (mkPanelJson als areas alimit)
      = .ok ((List.range (alimit.getD als.length)).filterMap (panelRecAt als areas)) := by
  have hgo := panelGo_ok (.obj [("areas", .arr areas)]) (.arr als) (panelRecAt als areas)
    (panelStep_eq als areas)
  cases alimit with
  | none =>
    have hos : objGet (mkPanelJson als areas none) "deviceState"
        = .ok (.obj [("areas", .arr areas)]) := rfl
    have hoz : objGet (mkPanelJson als areas none) "deviceProfile"
        = .ok (.obj [("areasLabels", .arr als)]) := rfl
    have hal : pyGetD (Json.obj [("areasLabels", Json.arr als)]) "areasLabels" (.arr [])
        = .ok (.arr als) := rfl
    have hlim : pyGetD (Json.obj [("areasLabels", Json.arr als)]) "areasLimit"
        (.int als.length) = .ok (.int als.length) := rfl
    have hrange : pyRangeLen (.int (als.length : Int)) = .ok als.length := by simp [pyRangeLen]
    simp only [get_panel_states, hos, hoz, hal, pyLen, bind_ok_py, hlim, hrange,
      hgo als.length 0 []]
    simp [List.range_eq_range']
  | some n =>
    have hos : objGet (mkPanelJson als areas (some n)) "deviceState"
        = .ok (.obj [("areas", .arr areas)]) := rfl
    have hoz : objGet (mkPanelJson als areas (some n)) "deviceProfile"
        = .ok (.obj [("areasLabels", .arr als), ("areasLimit", .int n)]) := rfl
    have hal : pyGetD (Json.obj [("areasLabels", Json.arr als), ("areasLimit", Json.int n)])
        "areasLabels" (.arr []) = .ok (.arr als) := rfl
    have hlim : pyGetD (Json.obj [("areasLabels", Json.arr als), ("areasLimit", Json.int n)])
        "areasLimit" (.int als.length) = .ok (.int n) := rfl
    have hrange : pyRangeLen (.int (n : Int)) = .ok n := by simp [pyRangeLen]
    simp only [get_panel_states, hos, hoz, hal, pyLen, bind_ok_py, hlim, hrange, hgo n 0 []]
    simp [List.range_eq_range']

def pgmStateJson : Option (List Json) → Json
  | some ps => .arr ps
  | none => .null

def mkPgmJson (ps? : Option (List Json)) (ls : List Json) (plimit : Option Int)
    (ss : List Json) : Json :=
  .obj [("deviceProfile", .obj (("pgmLabels", Json.arr ls) :: ("pgmControl", Json.arr ss) ::
      (match plimit with
       | some n => [("pgmLimit", Json.int n)]
       | none => []))),
    ("deviceState", .obj (match ps? with
      | some ps => [("pgm", Json.arr ps)]
      | none => []))]

/-- Effective PGM iteration bound: `pgmLimit`, or the label-array length
when the limit is zero or absent. -/
def pgmEffLimit (plimit : Option Int) (ls : List Json) : ℕ :=
  match plimit with
  | none => ls.length
  | some n => if n = 0 then ls.length else n.toNat

set_option maxHeartbeats 1000000 in
theorem pgmPrep_eq (ps? : Option (List Json)) (ls : List Json) (plimit : Option Int)
    (ss : List Json) :
    pgmPrep (mkPgmJson ps? ls plimit ss)
      = .ok (some (pgmStateJson ps?, Json.arr ls, Json.arr ss,
          Json.int (if plimit.getD 0 = 0 then (ls.length : Int) else plimit.getD 0))) := by
  have hset : (if pyTruthy (Json.arr ss) = true then Json.arr ss else Json.arr [])
      = Json.arr ss := by
    cases ss <;> simp [pyTruthy]
  cases ps? with
  | none =>
    cases plimit with
    | none =>
      cases ls <;> simp [pgmPrep, mkPgmJson, pgmStateJson, pyGetD, lookupStr, Json.isObj,
        hset, pyTruthy, pyEq, Json.isArr, Json.arrLen]
    | some n =>
      by_cases hn : n = 0
      · subst hn
        cases ls <;> simp [pgmPrep, mkPgmJson, pgmStateJson, pyGetD, lookupStr, Json.isObj,
          hset, pyTruthy, pyEq, Json.isArr, Json.arrLen]
      · cases ls <;> simp [pgmPrep, mkPgmJson, pgmStateJson, pyGetD, lookupStr, Json.isObj,
          hset, pyTruthy, pyEq, Json.isArr, Json.arrLen, hn]
  | some ps =>
    cases plimit with
    | none =>
      cases ls <;> simp [pgmPrep, mkPgmJson, pgmStateJson, pyGetD, lookupStr, Json.isObj,
        hset, pyTruthy, pyEq, Json.isArr, Json.arrLen]
    | some n =>
      by_cases hn : n = 0
      · subst hn
        cases ls <;> simp [pgmPrep, mkPgmJson, pgmStateJson, pyGetD, lookupStr, Json.isObj,
          hset, pyTruthy, pyEq, Json.isArr, Json.arrLen]
      · cases ls <;> simp [pgmPrep, mkPgmJson, pgmStateJson, pyGetD, lookupStr, Json.isObj,
          hset, pyTruthy, pyEq, Json.isArr, Json.arrLen, hn]

theorem get_pgm_zones_eq (ps? : Option (List Json)) (ls : List Json) (plimit : Option Int)
    (ss : List Json) :
    get_pgm_zones (mkPgmJson ps? ls plimit ss)
      = .ok ((List.range (pgmEffLimit plimit ls)).filterMap
          (pgmStep (pgmStateJson ps?) (.arr ls) (.arr ss))) := by
  have hprep := pgmPrep_eq ps? ls plimit ss
  have hrange : ∀ m : Int, pyInt (Json.int m) = .ok m := fun m => rfl
  cases plimit with
  | none =>
    simp only [get_pgm_zones, hprep, Option.getD, hrange]
    simp [pgmEffLimit]
  | some n =>
    by_cases hn : n = 0
    · simp only [get_pgm_zones, hprep, Option.getD, hrange]
      simp [pgmEffLimit, hn]
    · simp only [get_pgm_zones, hprep, Option.getD, hrange]
      simp [pgmEffLimit, hn]

theorem iterGo_okB (step : ℕ → Except PyErr α) (f : ℕ → α) :
    ∀ (fuel i : ℕ) (acc : List α),
      (∀ j, i ≤ j → j < i + fuel → step j = .ok (f j)) →
      iterGo step i fuel acc = (acc.reverse ++ (List.range' i fuel).map f, none) := by
  intro fuel
  induction fuel with
  | zero => intro i acc _; simp [iterGo]
  | succ fuel ih =>
    intro i acc h
    have hi : step i = .ok (f i) := h i le_rfl (by omega)
    have hstep : iterGo step i (fuel + 1) acc = iterGo step (i + 1) fuel (f i :: acc) := by
      rw [iterGo, hi]
    rw [hstep, ih (i + 1) (f i :: acc) (fun j hj1 hj2 => h j (by omega) (by omega))]
    simp [List.range'_succ]

theorem pyFor_okB (step : ℕ → Except PyErr α) (f : ℕ → α) (n : ℕ)
    (h : ∀ j < n, step j = .ok (f j)) :
    pyFor step n = ((List.range n).map f, none) := by
  rw [pyFor, iterGo_okB step f n 0 [] (fun j _ hj => h j (by omega))]
  simp [List.range_eq_range']

def mkUkeyJson (ls cs : List Json) (ulimit : ℕ) : Json :=
  .obj [("deviceProfile", .obj [("ukeysLabels", .arr ls), ("ukeysLimit", .int ulimit),
    ("ukeysControl", .arr cs)])]

/-- A control value `int()` accepts. -/
def intOk (c : Json) : Bool :=
  match pyInt c with
  | .ok _ => true
  | .error _ => false

/-- Closed form of one Ukey record on in-range, int-parseable inputs. -/
def ukeyRecAt (cs ls : List Json) (i : ℕ) : UkeyRec :=
  ⟨(if pyEq (ls.getD i Json.null) (.str "") then Json.str ("Ukey " ++ toString (i + 1))
      else ls.getD i Json.null),
    (match pyInt (cs.getD i Json.null) with
     | .ok n => n == 1
     | .error _ => false),
    i + 1⟩

theorem getD_mem_of_lt (l : List Json) (i : ℕ) (h : i < l.length) :
    l.getD i Json.null ∈ l := by
  induction l generalizing i with
  | nil => simp at h
  | cons x xs ih =>
    cases i with
    | zero =>
      rw [List.getD_cons_zero]
      exact List.mem_cons_self x xs
    | succ n =>
      have hn := ih n (by simpa using h)
      rw [List.getD_cons_succ]
      exact List.mem_cons_of_mem x hn

theorem ukeyStep_eq (cs ls : List Json) (i : ℕ) (hc : i < cs.length) (hl : i < ls.length)
    (hint : intOk (cs.getD i Json.null) = true) :
    ukeyStep (.arr cs) (.arr ls) i = .ok (ukeyRecAt cs ls i) := by
  simp only [ukeyStep, pyIndex_arr_lt cs i hc, bind_ok_py]
  cases hp : pyInt (cs.getD i Json.null) with
  | error e =>
    unfold intOk at hint
    rw [hp] at hint
    simp at hint
  | ok n =>
    simp only [bind_ok_py, pyIndex_arr_lt ls i hl, ukeyRecAt, hp]
    rfl

theorem ukeyStep_err (cs ls : List Json) (i : ℕ)
    (h : min cs.length ls.length ≤ i)
    (hall : ∀ c ∈ cs, intOk c = true) :
    ukeyStep (.arr cs) (.arr ls) i = .error .indexError := by
  by_cases hc : i < cs.length
  · have hl : ls.length ≤ i := by
      rcases Nat.le_total cs.length ls.length with hmin | hmin
      · rw [Nat.min_eq_left hmin] at h; omega
      · rw [Nat.min_eq_right hmin] at h; exact h
    have hmem : cs.getD i Json.null ∈ cs := getD_mem_of_lt cs i hc
    have hint := hall _ hmem
    simp only [ukeyStep, pyIndex_arr_lt cs i hc, bind_ok_py]
    cases hp : pyInt (cs.getD i Json.null) with
    | error e =>
      unfold intOk at hint
      rw [hp] at hint
      simp at hint
    | ok n => simp only [bind_ok_py, pyIndex_arr_ge ls i hl, bind_error_py]
  · have hge : cs.length ≤ i := by omega
    simp [ukeyStep, pyIndex_arr_ge cs i hge]

theorem get_ukey_zones_eq (ls cs : List Json) (ulimit : ℕ)
    (hall : ∀ c ∈ cs, intOk c = true) :
    get_ukey_zones (mkUkeyJson ls cs ulimit)
      = .ok (if ulimit ≤ min cs.length ls.length
          then (List.range ulimit).map (ukeyRecAt cs ls) else []) := by
  have hprep : ukeyPrep (mkUkeyJson ls cs ulimit)
      = .ok (some (.arr ls, .int ulimit, .arr cs)) := rfl
  have hrange : pyRangeLen (.int (ulimit : Int)) = .ok ulimit := by simp [pyRangeLen]
  by_cases hle : ulimit ≤ min cs.length ls.length
  · have hfor := pyFor_okB (ukeyStep (.arr cs) (.arr ls)) (ukeyRecAt cs ls) ulimit
      (fun j hj => by
        have hc : j < cs.length := by omega
        have hl : j < ls.length := by
          have := Nat.min_le_right cs.length ls.length
          omega
        have hc2 : j < cs.length := by
          have := Nat.min_le_left cs.length ls.length
          omega
        exact ukeyStep_eq cs ls j hc2 hl (hall _ (getD_mem_of_lt cs j hc2)))
    simp only [get_ukey_zones, hprep, hrange, hfor, if_pos hle]
  · have hkn : min cs.length ls.length < ulimit := by omega
    have hk := ukeyStep_err cs ls (min cs.length ls.length) le_rfl hall
    have hfor := pyFor_stop (ukeyStep (.arr cs) (.arr ls)) (ukeyRecAt cs ls)
      (min cs.length ls.length) ulimit .indexError hk hkn
      (fun j hj => by
        have hc : j < cs.length := by
          have := Nat.min_le_left cs.length ls.length
          omega
        have hl : j < ls.length := by
          have := Nat.min_le_right cs.length ls.length
          omega
        exact ukeyStep_eq cs ls j hc hl (hall _ (getD_mem_of_lt cs j hc)))
    simp only [get_ukey_zones, hprep, hrange, hfor, if_neg hle]

/-- C3 (amended): on device JSON whose fields carry the documented types
(state/profile objects; array-valued zones/stamps/labels/types/areas/
setup fields; integer limits; integer power values; int-parseable ukey
control values; and zonesLimit ≥ 1 for `get_sensor_states`, whose
post-loop `zone = zone + 1` raises NameError when zonesLimit is 0), every
decoder returns a list without propagating an exception, substituting
defaults for missing or short arrays; and when an index overrun is
detected mid-loop, `get_ukey_zones` aborts its loop and returns the EMPTY
list, discarding the partial list accumulated so far (the other decoders
guard every subscript, so their partial-return handlers are not reached
on such inputs). -/
theorem decoders_return_lists :
    (∀ (fmt : Int → String) (zs st ls ts : List Json) (zlimit : ℕ)
        (pw : List (String × Int)), 1 ≤ zlimit →
      ∃ recs, get_sensor_states fmt (mkSensorJson zs st ls ts zlimit pw) = .ok recs) ∧
    (∀ (fmt2 : Int → String) (zs st ls ts : List Json) (zlimit : ℕ)
        (pw : List (String × Int)),
      ∃ recs, get_sensor_bypass_states fmt2 (mkSensorJson zs st ls ts zlimit pw) = .ok recs) ∧
    (∀ (als areas : List Json) (alimit : Option ℕ),
      ∃ recs, get_panel_states (mkPanelJson als areas alimit) = .ok recs) ∧
    (∀ (ps? : Option (List Json)) (ls : List Json) (plimit : Option Int) (ss : List Json),
      ∃ recs, get_pgm_zones (mkPgmJson ps? ls plimit ss) = .ok recs) ∧
    (∀ (ls cs : List Json) (ulimit : ℕ), (∀ c ∈ cs, intOk c = true) →
      get_ukey_zones (mkUkeyJson ls cs ulimit)
        = .ok (if ulimit ≤ min cs.length ls.length
            then (List.range ulimit).map (ukeyRecAt cs ls) else [])) := by
  refine ⟨?_, ?_, ?_, ?_, ?_⟩
  · intro fmt zs st ls ts zlimit pw h
    exact ⟨_, get_sensor_states_eq fmt zs st ls ts zlimit pw h⟩
  · intro fmt2 zs st ls ts zlimit pw
    exact ⟨_, get_sensor_bypass_states_eq fmt2 zs st ls ts zlimit pw⟩
  · intro als areas alimit
    exact ⟨_, get_panel_states_eq als areas alimit⟩
  · intro ps? ls plimit ss
    exact ⟨_, get_pgm_zones_eq ps? ls plimit ss⟩
  · intro ls cs ulimit hall
    exact get_ukey_zones_eq ls cs ulimit hall

/-- Counterexample to C3: two ukey labels, limit 2, a one-element control
array — the loop hits IndexError at index 1 after accumulating the record
for index 0, yet `get_ukey_zones` returns the empty list rather than the
partial list. -/
theorem ukey_partial_discarded :
    pyFor (ukeyStep (Json.arr [Json.str "1"])
        (Json.arr [Json.str "Front", Json.str "Back"])) 2
      = ([⟨Json.str "Front", true, 1⟩], some .indexError) ∧
    get_ukey_zones (mkUkeyJson [Json.str "Front", Json.str "Back"] [Json.str "1"] 2)
      = .ok [] ∧
    get_ukey_zones (mkUkeyJson [Json.str "Front", Json.str "Back"] [Json.str "1"] 2)
      ≠ .ok [⟨Json.str "Front", true, 1⟩] := by
  refine ⟨rfl, rfl, ?_⟩
  intro hcontra
  rw [show get_ukey_zones (mkUkeyJson [Json.str "Front", Json.str "Back"] [Json.str "1"] 2)
      = .ok [] from rfl] at hcontra
  exact List.noConfusion (Except.ok.inj hcontra)

/-- Witness for the amended C3 at concrete inputs: a one-zone sensor JSON
decodes, and a one-ukey JSON decodes to its in-range closed form. -/
theorem decoders_return_lists_witness :
    ((1 : ℕ) ≤ 1) ∧
    (∃ recs, get_sensor_states (fun _ => "t") (mkSensorJson [Json.str "a"] [Json.int 5]
      [Json.str "Door"] [Json.int 10] 1 [("AC", 1)]) = .ok recs) ∧
    (∀ c ∈ [Json.str "1"], intOk c = true) ∧
    get_ukey_zones (mkUkeyJson [Json.str "K"] [Json.str "1"] 1)
      = .ok (if 1 ≤ min ([Json.str "1"] : List Json).length
            ([Json.str "K"] : List Json).length
          then (List.range 1).map (ukeyRecAt [Json.str "1"] [Json.str "K"]) else []) :=
  ⟨by decide,
    decoders_return_lists.1 (fun _ => "t") [Json.str "a"] [Json.int 5] [Json.str "Door"]
      [Json.int 10] 1 [("AC", 1)] (by decide),
    by decide,
    decoders_return_lists.2.2.2.2 [Json.str "K"] [Json.str "1"] 1 (by decide)⟩

/-- C5: for device JSON of the documented shape and every zone index
i < zonesLimit, `get_sensor_states` reports zone i as on iff the
character at index i of the zones status array case-insensitively equals
"a", `get_sensor_bypass_states` reports on iff that character equals "b",
and any index at or beyond the status array's length is reported off by
both. -/
theorem zone_state_character (fmt fmt2 : Int → String) (zs st ls ts : List Json)
    (zlimit : ℕ) (pw : List (String × Int)) (i : ℕ) (hi : i < zlimit) :
    ∃ d b, get_sensor_states fmt (mkSensorJson zs st ls ts zlimit pw) = .ok d ∧
      get_sensor_bypass_states fmt2 (mkSensorJson zs st ls ts zlimit pw) = .ok b ∧
      d[i]? = some (sensorRecAt fmt zs st ls ts i) ∧
      b[i]? = some (bypassRecAt fmt2 zs st ls i) ∧
      ((sensorRecAt fmt zs st ls ts i).state = "on" ↔
        i < zs.length ∧ pyLower (pyStr (zs.getD i Json.null)) = "a") ∧
      ((bypassRecAt fmt2 zs st ls i).state = "on" ↔
        i < zs.length ∧ pyLower (pyStr (zs.getD i Json.null)) = "b") ∧
      (zs.length ≤ i →
        (sensorRecAt fmt zs st ls ts i).state = "off" ∧
        (bypassRecAt fmt2 zs st ls i).state = "off") := by
  have hlim : 1 ≤ zlimit := by omega
  refine ⟨_, _, get_sensor_states_eq fmt zs st ls ts zlimit pw hlim,
    get_sensor_bypass_states_eq fmt2 zs st ls ts zlimit pw, ?_, ?_, ?_, ?_, ?_⟩
  · have hlen : i < ((List.range zlimit).map (sensorRecAt fmt zs st ls ts)).length := by
      simp [hi]
    rw [List.getElem?_append, if_pos hlen, List.getElem?_map]
    simp [List.getElem?_range hi]
  · rw [List.getElem?_map]
    simp [List.getElem?_range hi]
  · rw [show (sensorRecAt fmt zs st ls ts i).state
        = (if i < zs.length ∧ pyLower (pyStr (zs.getD i Json.null)) = "a"
            then "on" else "off") from rfl]
    split
    next h => exact iff_of_true rfl h
    next h => exact iff_of_false (by decide) h
  · rw [show (bypassRecAt fmt2 zs st ls i).state
        = (if i < zs.length ∧ pyLower (pyStr (zs.getD i Json.null)) = "b"
            then "on" else "off") from rfl]
    split
    next h => exact iff_of_true rfl h
    next h => exact iff_of_false (by decide) h
  · intro hz
    have hno : ¬ i < zs.length := by omega
    constructor
    · rw [show (sensorRecAt fmt zs st ls ts i).state
          = (if i < zs.length ∧ pyLower (pyStr (zs.getD i Json.null)) = "a"
              then "on" else "off") from rfl]
      rw [if_neg (fun hc => hno hc.1)]
    · rw [show (bypassRecAt fmt2 zs st ls i).state
          = (if i < zs.length ∧ pyLower (pyStr (zs.getD i Json.null)) = "b"
              then "on" else "off") from rfl]
      rw [if_neg (fun hc => hno hc.1)]

/-- Witness for C5 at a concrete input: zones "A", "a", "b" with
zonesLimit 3 — zone 0 is on for the sensor decoder ("A" lowercases to
"a") and off for the bypass decoder. -/
theorem zone_state_character_witness :
    ((0 : ℕ) < 3) ∧
    (∃ d b, get_sensor_states (fun _ => "")
        (mkSensorJson [Json.str "A", Json.str "a", Json.str "b"] [] [] [] 3 []) = .ok d ∧
      get_sensor_bypass_states (fun _ => "")
        (mkSensorJson [Json.str "A", Json.str "a", Json.str "b"] [] [] [] 3 []) = .ok b ∧
      d[0]? = some (sensorRecAt (fun _ => "") [Json.str "A", Json.str "a", Json.str "b"]
        [] [] [] 0) ∧
      b[0]? = some (bypassRecAt (fun _ => "") [Json.str "A", Json.str "a", Json.str "b"]
        [] [] 0) ∧
      ((sensorRecAt (fun _ => "") [Json.str "A", Json.str "a", Json.str "b"]
          [] [] [] 0).state = "on" ↔
        0 < ([Json.str "A", Json.str "a", Json.str "b"] : List Json).length ∧
        pyLower (pyStr (([Json.str "A", Json.str "a", Json.str "b"] : List Json).getD 0
          Json.null)) = "a") ∧
      ((bypassRecAt (fun _ => "") [Json.str "A", Json.str "a", Json.str "b"]
          [] [] 0).state = "on" ↔
        0 < ([Json.str "A", Json.str "a", Json.str "b"] : List Json).length ∧
        pyLower (pyStr (([Json.str "A", Json.str "a", Json.str "b"] : List Json).getD 0
          Json.null)) = "b") ∧
      (([Json.str "A", Json.str "a", Json.str "b"] : List Json).length ≤ 0 →
        (sensorRecAt (fun _ => "") [Json.str "A", Json.str "a", Json.str "b"]
          [] [] [] 0).state = "off" ∧
        (bypassRecAt (fun _ => "") [Json.str "A", Json.str "a", Json.str "b"]
          [] [] 0).state = "off")) :=
  ⟨by decide,
    zone_state_character (fun _ => "") (fun _ => "")
      [Json.str "A", Json.str "a", Json.str "b"] [] [] [] 3 [] 0 (by decide)⟩

/-- The setup-control string seen by the PGM loop at index i. -/
def pgmSetupStrAt (ss : List Json) (i : ℕ) : String :=
  pyStrOrEmpty (if i < ss.length then ss.getD i Json.null else Json.str "")

/-- C8: `get_pgm_zones` iterates indices 0 up to pgmLimit (or the
label-array length when the limit is zero or absent); an index whose
setup-control string is empty (including every index beyond the setup
array) is omitted from the output; and each emitted entry has `enabled`
true iff the setup string's first character is "1", `pulse` true iff its
third character is "1", and `state` on iff the PGM status array's
character at that index (case-insensitively) equals "a". -/
theorem pgm_zone_decoding (ps ls ss : List Json) (plimit : Option Int) :
    get_pgm_zones (mkPgmJson (some ps) ls plimit ss)
      = .ok ((List.range (pgmEffLimit plimit ls)).filterMap
          (pgmStep (.arr ps) (.arr ls) (.arr ss))) ∧
    (∀ i, pyEq (if i < ss.length then ss.getD i Json.null else Json.str "")
        (.str "") = true →
      pgmStep (.arr ps) (.arr ls) (.arr ss) i = none) ∧
    (∀ i r, pgmStep (.arr ps) (.arr ls) (.arr ss) i = some r →
      r.enabled = (decide (0 < (pgmSetupStrAt ss i).length)
        && ((pgmSetupStrAt ss i).data.getD 0 ' ' == '1')) ∧
      r.pulse = (decide (2 < (pgmSetupStrAt ss i).length)
        && ((pgmSetupStrAt ss i).data.getD 2 ' ' == '1')) ∧
      r.state = (decide (i < ps.length) && (pyLower (pyStr (ps.getD i Json.null)) == "a")) ∧
      r.pgm_number = i + 1) := by
  refine ⟨?_, ?_, ?_⟩
  · exact get_pgm_zones_eq (some ps) ls plimit ss
  · intro i hempty
    simp only [pgmStep]
    rw [if_pos hempty]
  · intro i r hr
    by_cases hemp : pyEq (if i < ss.length then ss.getD i Json.null else Json.str "")
        (.str "") = true
    · simp only [pgmStep] at hr
      rw [if_pos hemp] at hr
      exact Option.noConfusion hr
    · simp only [pgmStep] at hr
      rw [if_neg hemp] at hr
      have hre := (Option.some.inj hr).symm
      subst hre
      refine ⟨rfl, rfl, ?_, rfl⟩
      by_cases hps : i < ps.length
      · simp [hps]
      · simp [hps]

/-- Witness for C8 at concrete inputs: setup strings ["101", ""] — index
1 is omitted, and index 0 is emitted enabled, pulse-capable and on. -/
theorem pgm_zone_decoding_witness :
    (pyEq (if 1 < ([Json.str "101", Json.str ""] : List Json).length
        then ([Json.str "101", Json.str ""] : List Json).getD 1 Json.null
        else Json.str "") (.str "") = true) ∧
    pgmStep (.arr [Json.str "A"]) (.arr [Json.str "P1", Json.str "P2"])
      (.arr [Json.str "101", Json.str ""]) 1 = none ∧
    (⟨Json.str "P1", true, true, true, 1⟩ : PgmRec).enabled
      = (decide (0 < (pgmSetupStrAt [Json.str "101", Json.str ""] 0).length)
        && ((pgmSetupStrAt [Json.str "101", Json.str ""] 0).data.getD 0 ' ' == '1')) :=
  ⟨by decide,
    (pgm_zone_decoding [Json.str "A"] [Json.str "P1", Json.str "P2"]
      [Json.str "101", Json.str ""] (some 2)).2.1 1 (by decide),
    ((pgm_zone_decoding [Json.str "A"] [Json.str "P1", Json.str "P2"]
      [Json.str "101", Json.str ""] (some 2)).2.2 0
      ⟨Json.str "P1", true, true, true, 1⟩ rfl).1⟩
